import Mathlib

/-!
Shallow embedding of the ENEM aggregation/cleaning pipeline
(`src/enem_project/data/...`, `src/enem_project/infra/data_quality.py`,
`src/enem_project/config/hardware.py`).

DataFrames are modelled as lists of rows; a row is an association list from
column names to cell values.  Cell values are `null` (NaN/NA), strings, or
rationals (pandas float64 is modelled by `ℚ`; all the verified properties are
order/arithmetic facts that hold for the float computations the code performs
on in-range exam scores).
-/

/-- A pandas cell value: NaN/NA, a string, or a number (float/int modelled
by `ℚ`). -/
inductive Value where
  | null : Value
  | str : String → Value
  | num : ℚ → Value
deriving DecidableEq, Repr

/-- A dataframe row: association list column-name ↦ cell value. -/
abbrev Row := List (String × Value)

/-- `df.loc[row, c]`: the cell value of column `c` in row `r` (`null` when the
row carries no such column). -/
def getVal (r : Row) (c : String) : Value :=
  ((r.find? (fun p => p.1 = c)).map Prod.snd).getD Value.null

/-- `df.loc[row, c] = v`: replace the cell of column `c` (no-op when the row
carries no such column, matching a pandas assignment to an existing column for
a row that the frame schema does not cover). -/
def setCell (r : Row) (c : String) (v : Value) : Row :=
  r.map (fun p => if p.1 = c then (c, v) else p)

/-- One digit of a decimal literal. -/
def digitVal (c : Char) : Option ℕ :=
  if c.isDigit then some (c.toNat - 48) else none

/-- Accumulating decimal parser for a digit run. -/
def parseNatDigits : List Char → ℕ → Option ℕ
  | [], acc => some acc
  | c :: rest, acc =>
    match digitVal c with
    | some d => parseNatDigits rest (acc * 10 + d)
    | none => none

/-- Parse a decimal literal `[+-]digits[.digits]` as a rational; `none` on any
malformed input (pandas `to_numeric(errors="coerce")`). -/
def parseRat (s : String) : Option ℚ :=
  let cs := s.data
  let signed : Bool × List Char :=
    match cs with
    | '-' :: rest => (true, rest)
    | '+' :: rest => (false, rest)
    | l => (false, l)
  let intPart := signed.2.takeWhile (fun c => c ≠ '.')
  let rest := signed.2.dropWhile (fun c => c ≠ '.')
  let fracPart : Option (List Char) :=
    match rest with
    | [] => some []
    | '.' :: f => if f.contains '.' then none else some f
    | _ => none
  match fracPart with
  | none => none
  | some f =>
    if intPart = [] ∧ f = [] then none
    else
      match parseNatDigits intPart 0, parseNatDigits f 0 with
      | some ip, some fp =>
        let mag : ℚ := (ip : ℚ) + (fp : ℚ) / ((10 : ℚ) ^ f.length)
        some (if signed.1 then -mag else mag)
      | _, _ => none

/-- `pd.to_numeric(v, errors="coerce")` on a single cell. -/
def pyToNumeric : Value → Option ℚ
  | .num q => some q
  | .str s => parseRat s
  | .null => none

/-- `astype(str)` on a single cell (pandas renders NaN as `"nan"`). -/
def pyStr : Value → String
  | .null => "nan"
  | .str s => s
  | .num q => toString q

/-- `enem_project.data.cleaning.rules.NumericRule`. -/
structure NumericRule where
  column : String
  min_value : Option ℚ
  max_value : Option ℚ
deriving DecidableEq, Repr

/-- `enem_project.data.cleaning.rules.DEFAULT_NUMERIC_RULES`. -/
def DEFAULT_NUMERIC_RULES : List NumericRule :=
  [⟨"NU_IDADE", some 8, some 120⟩,
   ⟨"NOTA_CIENCIAS_NATUREZA", some 0, some 1000⟩,
   ⟨"NOTA_CIENCIAS_HUMANAS", some 0, some 1000⟩,
   ⟨"NOTA_LINGUAGENS_CODIGOS", some 0, some 1000⟩,
   ⟨"NOTA_MATEMATICA", some 0, some 1000⟩,
   ⟨"NOTA_REDACAO", some 0, some 1000⟩]

/-- One rule of `_validate_numeric_ranges`: a row violates the rule iff the
cell coerces to a number outside `[min_value, max_value]` (nulls never
violate). -/
def ruleViolation (rule : NumericRule) (r : Row) : Bool :=
  match pyToNumeric (getVal r rule.column) with
  | none => false
  | some q =>
    (match rule.min_value with
     | some m => decide (q < m)
     | none => false) ||
    (match rule.max_value with
     | some m => decide (m < q)
     | none => false)

/-- `_validate_numeric_ranges` (cleaning/pipeline.py): the invalid-row mask.
Rules whose column is absent from the frame are skipped. -/
def invalidRow (cols : List String) (r : Row) : Bool :=
  DEFAULT_NUMERIC_RULES.any (fun rule =>
    decide (rule.column ∈ cols) && ruleViolation rule r)

/-- One row of the reference metadata that carries a non-null
`dominio_valores` (the `cols_with_domain` of `_apply_domains`). -/
structure MetaDomain where
  nome_padrao : String
  dominio_valores : List Value
deriving DecidableEq, Repr

/-- `mask_invalid` of `_apply_domains` for one cell: non-null and outside the
declared value domain. -/
def domainInvalid (dom : List Value) (col : String) (r : Row) : Bool :=
  decide (getVal r col ≠ Value.null) && decide (getVal r col ∉ dom)

/-- The per-row effect of one `_apply_domains` replacement: an out-of-domain
non-null cell becomes `pd.NA` for a numeric-dtype column and `"UNKNOWN"`
otherwise. -/
def domainFixRow (numCols : List String) (col : String) (dom : List Value)
    (r : Row) : Row :=
  if domainInvalid dom col r then
    setCell r col (if col ∈ numCols then Value.null else Value.str "UNKNOWN")
  else r

/-- `_apply_domains` (cleaning/pipeline.py): walk the metadata rows in order;
for each domain-bearing column present in the frame, replace out-of-domain
cells and report the affected-row count when it is non-zero.  Returns the
corrected rows and the domain report `(column, affected_rows)`. -/
def applyDomains (frameCols numCols : List String) :
    List MetaDomain → List Row → List Row × List (String × ℕ)
  | [], rows => (rows, [])
  | m :: rest, rows =>
    if m.nome_padrao ∈ frameCols then
      let cnt := rows.countP (domainInvalid m.dominio_valores m.nome_padrao)
      let rows2 :=
        if cnt ≠ 0 then
          rows.map (domainFixRow numCols m.nome_padrao m.dominio_valores)
        else rows
      let out := applyDomains frameCols numCols rest rows2
      (out.1, (if cnt ≠ 0 then [(m.nome_padrao, cnt)] else []) ++ out.2)
    else applyDomains frameCols numCols rest rows

/-- `df.duplicated(subset=[key], keep="first")` split, threading the set of
already-seen keys: returns (kept rows, duplicate rows, updated seen set). -/
def dedupStep {α : Type} [DecidableEq α] (key : Row → α) :
    List Row → List α → List Row × List Row × List α
  | [], seen => ([], [], seen)
  | r :: rs, seen =>
    if key r ∈ seen then
      let p := dedupStep key rs seen
      (p.1, r :: p.2.1, p.2.2)
    else
      let p := dedupStep key rs (key r :: seen)
      (r :: p.1, p.2.1, p.2.2)

/-- A dataframe: its schema (column names), the subset of columns with
numeric dtype, and its rows. -/
structure Frame where
  cols : List String
  numCols : List String
  rows : List Row
deriving DecidableEq, Repr

/-- The dedup key of `run_cleaning_pipeline`: the raw `ID_INSCRICAO` cell. -/
def fullKey (r : Row) : Value := getVal r "ID_INSCRICAO"

/-- The dedup key of `stream_clean_to_parquet`: `ID_INSCRICAO` after
`astype(str)`. -/
def streamKey (r : Row) : String := pyStr (fullKey r)

/-- The shared body of the full and the streaming cleaning stage on one block
of rows: range-validation split, dedup by `key` (only when the frame has the
`ID_INSCRICAO` column), then domain correction. -/
structure CoreOut (α : Type) where
  corrected : List Row
  invalid : List Row
  dups : List Row
  domainReport : List (String × ℕ)
  seen : List α

/-- One cleaning pass over `rows` with dedup state `seen`
(cleaning/pipeline.py lines 107-118, cleaning/streaming.py lines 64-79). -/
def cleanCore {α : Type} [DecidableEq α] (key : Row → α)
    (frameCols numCols : List String) (meta : List MetaDomain)
    (rows : List Row) (seen : List α) : CoreOut α :=
  let invalid := rows.filter (invalidRow frameCols)
  let valid := rows.filter (fun r => !invalidRow frameCols r)
  let dd :=
    if "ID_INSCRICAO" ∈ frameCols then dedupStep key valid seen
    else (valid, [], seen)
  let ad := applyDomains frameCols numCols meta dd.1
  ⟨ad.1, invalid, dd.2.1, ad.2, dd.2.2⟩

/-- `CleaningArtifacts` of cleaning/pipeline.py; the report is a list of
`(rule, affected_rows)` entries. -/
structure CleaningArtifacts where
  cleaned_df : List Row
  cleaning_report : List (String × ℕ)
  invalid_rows : List Row
  duplicates : List Row
deriving DecidableEq, Repr

/-- Report assembly of `run_cleaning_pipeline`: `invalid_rows` and
`duplicates` entries only when non-empty, then one `domain:col` entry per
reported column. -/
def assembleReport (invalidLen dupsLen : ℕ)
    (domainReport : List (String × ℕ)) : List (String × ℕ) :=
  (if invalidLen ≠ 0 then [("invalid_rows", invalidLen)] else []) ++
  (if dupsLen ≠ 0 then [("duplicates", dupsLen)] else []) ++
  domainReport.map (fun p => ("domain:" ++ p.1, p.2))

/-- `run_cleaning_pipeline` (cleaning/pipeline.py): validate numeric ranges,
quarantine invalid rows, dedup by `ID_INSCRICAO` keeping the first
occurrence, apply domain corrections, assemble the report. -/
def run_cleaning_pipeline (frame : Frame) (meta : List MetaDomain) :
    CleaningArtifacts :=
  let core := cleanCore fullKey frame.cols frame.numCols meta frame.rows []
  ⟨core.corrected,
   assembleReport core.invalid.length core.dups.length core.domainReport,
   core.invalid, core.dups⟩

/-- Accumulator of `stream_clean_to_parquet`: the cross-batch `seen_ids` set,
the incrementally written output, the quarantine parts and the
`report_counter`. -/
structure StreamAcc where
  seen : List String
  cleaned : List Row
  invalid : List Row
  dups : List Row
  counter : List (String × ℕ)

/-- `report_counter[rule] += n` (`defaultdict(int)` semantics; keys stay
unique). -/
def addCount : List (String × ℕ) → String → ℕ → List (String × ℕ)
  | [], rule, n => [(rule, n)]
  | (r, m) :: rest, rule, n =>
    if r = rule then (r, m + n) :: rest else (r, m) :: addCount rest rule n

/-- Apply a list of counter increments in order. -/
def bumpCounters (counter : List (String × ℕ)) (entries : List (String × ℕ)) :
    List (String × ℕ) :=
  entries.foldl (fun c p => addCount c p.1 p.2) counter

/-- One iteration of the batch loop of `stream_clean_to_parquet`
(streaming.py lines 61-100). -/
def processChunk (frameCols numCols : List String) (meta : List MetaDomain)
    (acc : StreamAcc) (chunk : List Row) : StreamAcc :=
  let core := cleanCore streamKey frameCols numCols meta chunk acc.seen
  let c1 :=
    if core.invalid.length ≠ 0 then
      addCount acc.counter "invalid_rows" core.invalid.length
    else acc.counter
  let c2 :=
    if core.dups.length ≠ 0 then addCount c1 "duplicates" core.dups.length
    else c1
  let c3 := bumpCounters c2 (core.domainReport.map
    (fun p => ("domain:" ++ p.1, p.2)))
  ⟨core.seen, acc.cleaned ++ core.corrected, acc.invalid ++ core.invalid,
   acc.dups ++ core.dups, c3⟩

/-- `ParquetFile.iter_batches(batch_size=n)`: split a row list into
consecutive chunks of `n` rows (the last chunk may be shorter). -/
def chunkList {α : Type} (n : ℕ) : List α → List (List α)
  | [] => []
  | r :: rs => (r :: rs.take (n - 1)) :: chunkList n (rs.drop (n - 1))
termination_by l => l.length
decreasing_by
  simp only [List.length_cons, List.length_drop]
  omega

/-- `report_counter.get(rule)` with default 0. -/
def counterGet (c : List (String × ℕ)) (rule : String) : ℕ :=
  match c.find? (fun p => p.1 = rule) with
  | some p => p.2
  | none => 0

/-- Final `cleaning_report` assembly of `stream_clean_to_parquet`:
`invalid_rows` and `duplicates` first (when non-zero), then the remaining
counter entries sorted by rule name. -/
def streamReport (counter : List (String × ℕ)) : List (String × ℕ) :=
  (if counterGet counter "invalid_rows" ≠ 0 then
    [("invalid_rows", counterGet counter "invalid_rows")] else []) ++
  (if counterGet counter "duplicates" ≠ 0 then
    [("duplicates", counterGet counter "duplicates")] else []) ++
  ((counter.filter (fun p =>
      decide (p.1 ≠ "invalid_rows") && decide (p.1 ≠ "duplicates"))).mergeSort
    (fun a b => decide (a.1 ≤ b.1)))

/-- `StreamingCleaningResult` of cleaning/streaming.py (the cleaned rows stand
for the content of the written parquet file). -/
structure StreamingCleaningResult where
  row_count : ℕ
  cleaned : List Row
  cleaning_report : List (String × ℕ)
  invalid_rows : List Row
  duplicates : List Row
deriving DecidableEq, Repr

/-- `stream_clean_to_parquet` (cleaning/streaming.py): run the cleaning body
over `max 1 chunk_rows`-sized batches, threading `seen_ids` across batches and
merging the per-batch reports. -/
def stream_clean_to_parquet (frame : Frame) (meta : List MetaDomain)
    (chunk_rows : ℕ) : StreamingCleaningResult :=
  let batchSize := max 1 chunk_rows
  let acc := (chunkList batchSize frame.rows).foldl
    (processChunk frame.cols frame.numCols meta) ⟨[], [], [], [], []⟩
  ⟨acc.cleaned.length, acc.cleaned, streamReport acc.counter, acc.invalid,
   acc.dups⟩

/-- Total affected-row count a report assigns to one rule. -/
def reportTotal (rep : List (String × ℕ)) (rule : String) : ℕ :=
  ((rep.filter (fun p => p.1 = rule)).map Prod.snd).sum

/-- `DEFAULT_NOTA_COLUMNS` / `NOTE_COLUMNS`: the five subject-score
columns. -/
def NOTA_COLUMNS : List String :=
  ["NOTA_CIENCIAS_NATUREZA", "NOTA_CIENCIAS_HUMANAS",
   "NOTA_LINGUAGENS_CODIGOS", "NOTA_MATEMATICA", "NOTA_REDACAO"]

/-- `_aggregate_stats` per-subject masking (silver_to_gold.py lines 240-254):
coerce to numeric, keep only values in `[0, 1000]`, drop nulls. -/
def validScores (vals : List Value) : List ℚ :=
  (vals.filterMap pyToNumeric).filter (fun q =>
    decide (0 ≤ q) && decide (q ≤ 1000))

/-- `series_valid.count()` of `_aggregate_stats`. -/
def statsCount (vals : List Value) : ℕ := (validScores vals).length

/-- `series_valid.mean()` of `_aggregate_stats`, `0.0` for an empty valid
series (lines 256-265). -/
def statsMean (vals : List Value) : ℚ :=
  if (validScores vals).length = 0 then 0
  else (validScores vals).sum / ((validScores vals).length : ℚ)

/-- `series_valid.min()` of `_aggregate_stats`, `0.0` when empty. -/
def statsMin (vals : List Value) : ℚ :=
  match validScores vals with
  | [] => 0
  | q :: qs => qs.foldl min q

/-- `series_valid.max()` of `_aggregate_stats`, `0.0` when empty. -/
def statsMax (vals : List Value) : ℚ :=
  match validScores vals with
  | [] => 0
  | q :: qs => qs.foldl max q

/-- Presence-column mapping of `build_tb_notas_geo_from_cleaned`
(silver_to_gold.py lines 501-506); `NOTA_REDACAO` is handled separately. -/
def GEO_PRESENCE_MAP : List (String × String) :=
  [("NOTA_CIENCIAS_NATUREZA", "TP_PRESENCA_CN"),
   ("NOTA_CIENCIAS_HUMANAS", "TP_PRESENCA_CH"),
   ("NOTA_LINGUAGENS_CODIGOS", "TP_PRESENCA_LC"),
   ("NOTA_MATEMATICA", "TP_PRESENCA_MT")]

/-- `valid_range` of the geo masking loop: the cell coerces to a number in
`[0, 1000]`. -/
def geoValidRange (r : Row) (col : String) : Bool :=
  match pyToNumeric (getVal r col) with
  | some q => decide (0 ≤ q) && decide (q ≤ 1000)
  | none => false

/-- `valid` of the geo masking loop (silver_to_gold.py lines 508-544): range
check, conjoined with "presence flag coerces to 1" when the subject's
presence column is available in the frame; `NOTA_REDACAO` uses
`TP_PRESENCA_LC` when `TP_STATUS_REDACAO` is a frame column. -/
def geoValidFlag (cols : List String) (r : Row) (col : String) : Bool :=
  match GEO_PRESENCE_MAP.find? (fun p => p.1 = col) with
  | some p =>
    if p.2 ∈ cols then
      geoValidRange r col && decide (pyToNumeric (getVal r p.2) = some 1)
    else geoValidRange r col
  | none =>
    if col = "NOTA_REDACAO" ∧ "TP_STATUS_REDACAO" ∈ cols then
      if "TP_PRESENCA_LC" ∈ cols then
        geoValidRange r col &&
          decide (pyToNumeric (getVal r "TP_PRESENCA_LC") = some 1)
      else geoValidRange r col
    else geoValidRange r col

/-- The presence-aware masking of `build_tb_notas_geo_from_cleaned`
(silver_to_gold.py line 546, `series.where(valid)`). -/
def geoMaskScore (cols : List String) (r : Row) (col : String) : Option ℚ :=
  if geoValidFlag cols r col then pyToNumeric (getVal r col) else none

/-- `grouped[col].count()` on the presence-masked column, for one group. -/
def geoScoreCount (cols : List String) (group : List Row) (col : String) : ℕ :=
  (group.filterMap (fun r => geoMaskScore cols r col)).length

/-- `grouped[col].mean()` on the presence-masked column, `None` for an empty
group. -/
def geoScoreMean (cols : List String) (group : List Row) (col : String) :
    Option ℚ :=
  if (group.filterMap (fun r => geoMaskScore cols r col)).length = 0 then none
  else some ((group.filterMap (fun r => geoMaskScore cols r col)).sum
    / ((group.filterMap (fun r => geoMaskScore cols r col)).length : ℚ))

/-- `INSCRITOS` of one geo group in the pandas path: `nunique` of
`ID_INSCRICAO` when the column exists, otherwise the group size
(silver_to_gold.py lines 554-558).  `_clean_columns` has applied
`astype(str)` to the identifier column (line 83), so `nunique` counts
distinct rendered strings (no NA values remain after the cast). -/
def geoInscritos (cols : List String) (group : List Row) : ℕ :=
  if "ID_INSCRICAO" ∈ cols then ((group.map streamKey).dedup).length
  else group.length

/-- The range-only masking of `build_tb_notas_geo_uf_from_cleaned`
(silver_to_gold.py lines 619-622): no presence filter. -/
def ufMaskScore (r : Row) (col : String) : Option ℚ :=
  match pyToNumeric (getVal r col) with
  | some q => if 0 ≤ q ∧ q ≤ 1000 then some q else none
  | none => none

/-- `grouped[col].mean()` of the UF aggregation. -/
def ufScoreMean (group : List Row) (col : String) : Option ℚ :=
  if (group.filterMap (fun r => ufMaskScore r col)).length = 0 then none
  else some ((group.filterMap (fun r => ufMaskScore r col)).sum
    / ((group.filterMap (fun r => ufMaskScore r col)).length : ℚ))

/-- Presence map of `_build_geo_duckdb` (silver_to_gold.py lines 318-324):
unlike the pandas loop, `NOTA_REDACAO` is masked by `TP_PRESENCA_LC`
directly (Redação happens on the LC exam day). -/
def DUCKDB_PRESENCE_MAP : List (String × String) :=
  [("NOTA_CIENCIAS_NATUREZA", "TP_PRESENCA_CN"),
   ("NOTA_CIENCIAS_HUMANAS", "TP_PRESENCA_CH"),
   ("NOTA_LINGUAGENS_CODIGOS", "TP_PRESENCA_LC"),
   ("NOTA_MATEMATICA", "TP_PRESENCA_MT"),
   ("NOTA_REDACAO", "TP_PRESENCA_LC")]

/-- The SQL condition of `_build_geo_duckdb` (lines 326-347):
`col BETWEEN 0 AND 1000`, conjoined with `pres_col = 1` when the presence
column exists in the parquet schema.  NULL comparisons are not true in SQL,
matching the option-valued coercion. -/
def duckdbValidFlag (cols : List String) (r : Row) (col : String) : Bool :=
  geoValidRange r col &&
  (match DUCKDB_PRESENCE_MAP.find? (fun p => p.1 = col) with
   | some p =>
     if p.2 ∈ cols then decide (pyToNumeric (getVal r p.2) = some 1)
     else true
   | none => true)

/-- `CASE WHEN <cond> THEN col END` of `_build_geo_duckdb` (line 342). -/
def duckdbMaskScore (cols : List String) (r : Row) (col : String) :
    Option ℚ :=
  if duckdbValidFlag cols r col then pyToNumeric (getVal r col) else none

/-- `SUM(CASE WHEN <cond> THEN 1 ELSE 0 END)` per group (line 345). -/
def duckdbScoreCount (cols : List String) (group : List Row) (col : String) :
    ℕ :=
  (group.filterMap (fun r => duckdbMaskScore cols r col)).length

/-- `AVG(CASE WHEN <cond> THEN col END)` per group (line 347); SQL `AVG`
skips NULLs and is NULL on an all-NULL group. -/
def duckdbScoreMean (cols : List String) (group : List Row) (col : String) :
    Option ℚ :=
  if (group.filterMap (fun r => duckdbMaskScore cols r col)).length = 0
  then none
  else some ((group.filterMap (fun r => duckdbMaskScore cols r col)).sum
    / ((group.filterMap (fun r => duckdbMaskScore cols r col)).length : ℚ))

/-- `COUNT(DISTINCT ID_INSCRICAO)` (or `COUNT(*)` without the identifier
column) of `_build_geo_duckdb` (lines 310-313); SQL `COUNT(DISTINCT ...)`
drops NULL identifiers. -/
def duckdbInscritos (cols : List String) (group : List Row) : ℕ :=
  if "ID_INSCRICAO" ∈ cols then
    (((group.map fullKey).filter (fun v => v ≠ Value.null)).dedup).length
  else group.length

/-- Keys in first-occurrence order, skipping keys already in `seen` (the key
sequence kept by a `keep="first"` dedup). -/
def firstOccur {α : Type} [DecidableEq α] : List α → List α → List α
  | [], _ => []
  | k :: ks, seen =>
    if k ∈ seen then firstOccur ks seen else k :: firstOccur ks (k :: seen)

/-- Per-subject stats record of `_aggregate_stats`:
`(column, count, mean)`. -/
abbrev SubjectStats := String × ℕ × ℚ

/-- `_aggregate_stats` (silver_to_gold.py lines 193-284) restricted to the
subject-score outputs: group by `ANO` and compute each subject's masked count
and mean (range mask only — the function never consults presence flags). -/
def aggregateStats (rows : List Row) : List (Value × List SubjectStats) :=
  (firstOccur (rows.map (fun r => getVal r "ANO")) []).map (fun y =>
    let grp := rows.filter (fun r => getVal r "ANO" = y)
    (y, NOTA_COLUMNS.map (fun col =>
      let vals := grp.map (fun r => getVal r col)
      (col, statsCount vals, statsMean vals))))

/-- `DEMOGRAPHIC_COLUMNS` of silver_to_gold.py (line 51). -/
def DEMOGRAPHIC_COLUMNS : List String :=
  ["TP_SEXO", "TP_COR_RACA", "TP_FAIXA_ETARIA", "NU_IDADE"]

/-- `GEO_COLUMNS` of silver_to_gold.py (line 50). -/
def GEO_COLUMNS : List String :=
  ["SG_UF_PROVA", "CO_MUNICIPIO_PROVA", "NO_MUNICIPIO_PROVA"]

/-- The column set `_clean_columns` returns (silver_to_gold.py lines
116-128): `desired_cols` = ANO, ID_INSCRICAO, the demographic columns, the
requested extras, and the five nota columns — restricted to columns that
exist after the function's own additions (`ANO` and every nota column are
always created, lines 71-80; `ID_INSCRICAO` exists when the input carries it
or `NU_INSCRICAO` to derive it from, lines 82-85).  Everything else —
including every `TP_PRESENCA_*` column and `TP_STATUS_REDACAO` — is
dropped. -/
def cleanColumnsCols (cols : List String) (extras : List String) :
    List String :=
  ("ANO" :: "ID_INSCRICAO" ::
    (DEMOGRAPHIC_COLUMNS ++ extras ++ NOTA_COLUMNS)).filter
    (fun c => decide (c = "ANO") || decide (c ∈ NOTA_COLUMNS) ||
      (decide (c = "ID_INSCRICAO") &&
        (decide ("ID_INSCRICAO" ∈ cols) || decide ("NU_INSCRICAO" ∈ cols))) ||
      decide (c ∈ cols))

/-- Grouping key of `build_tb_notas_geo_from_cleaned`:
`(ANO, SG_UF_PROVA, CO_MUNICIPIO_PROVA, NO_MUNICIPIO_PROVA)`. -/
def geoKey (r : Row) : Value × Value × Value × Value :=
  (getVal r "ANO", getVal r "SG_UF_PROVA", getVal r "CO_MUNICIPIO_PROVA",
   getVal r "NO_MUNICIPIO_PROVA")

/-- `groupby(..., dropna=True)`: groups with a null component are dropped. -/
def geoKeyValid (k : Value × Value × Value × Value) : Bool :=
  decide (k.1 ≠ Value.null) && decide (k.2.1 ≠ Value.null) &&
  decide (k.2.2.1 ≠ Value.null) && decide (k.2.2.2 ≠ Value.null)

/-- One output row of the municipality aggregation:
`(key, INSCRITOS, per-subject (count, mean))`. -/
abbrev GeoGroup :=
  (Value × Value × Value × Value) × ℕ × List (String × ℕ × Option ℚ)

/-- The pandas path of `build_tb_notas_geo_from_cleaned` for one year's
frame (silver_to_gold.py lines 469-568): `_clean_columns(df, year,
extra_columns=GEO_COLUMNS)` at line 484 first projects the frame onto
`cleanColumnsCols` — dropping every presence column — then the masking loop
(lines 508-546) and the groupby/agg (lines 548-568) run on the projected
frame, so the loop's presence guards never fire on this path. -/
def aggregateGeo (cols : List String) (rows : List Row) : List GeoGroup :=
  let pcols := cleanColumnsCols cols GEO_COLUMNS
  let rows2 := rows.filter (fun r => geoKeyValid (geoKey r))
  (firstOccur (rows2.map geoKey) []).map (fun k =>
    let grp := rows2.filter (fun r => geoKey r = k)
    (k, geoInscritos pcols grp, NOTA_COLUMNS.map (fun col =>
      (col, geoScoreCount pcols grp col, geoScoreMean pcols grp col))))

/-- The warning `build_tb_notas_stats_from_cleaned` and the geo builders log
for a year whose cleaned parquet is missing. -/
def warnMissing (y : ℤ) : String :=
  "Arquivo limpo nao encontrado para o ano " ++ toString y ++ "; ignorando."

/-- `build_tb_notas_parquet_streaming` (silver_to_gold.py lines 145-190): for
each requested year the cleaned parquet must exist — a missing file raises
`FileNotFoundError` (lines 154-156); otherwise the year's rows are appended
and counted.  `files` maps a year to its cleaned frame when the file
exists. -/
def build_tb_notas_parquet_streaming (files : ℤ → Option Frame) :
    List ℤ → Except String ℕ
  | [] => .ok 0
  | y :: ys =>
    match files y with
    | none => .error ("FileNotFoundError: cleaned parquet for year "
        ++ toString y)
    | some f =>
      (build_tb_notas_parquet_streaming files ys).map
        (fun n => f.rows.length + n)

/-- `build_tb_notas_stats_from_cleaned` (silver_to_gold.py lines 403-429): a
year with no cleaned file is skipped with a warning (lines 414-420) and
contributes no records; present years contribute their `_aggregate_stats`
rows. Returns the logged warnings and the produced records. -/
def build_tb_notas_stats_from_cleaned (files : ℤ → Option Frame) :
    List ℤ → Except String (List String × List (Value × List SubjectStats))
  | [] => .ok ([], [])
  | y :: ys =>
    match files y with
    | none =>
      (build_tb_notas_stats_from_cleaned files ys).map
        (fun p => (warnMissing y :: p.1, p.2))
    | some f =>
      (build_tb_notas_stats_from_cleaned files ys).map
        (fun p => (p.1, aggregateStats f.rows ++ p.2))

/-- `build_tb_notas_geo_from_cleaned` (silver_to_gold.py lines 432-578,
pandas path): a year with no cleaned file is skipped with a warning (lines
449-456); present years contribute their municipality aggregation. -/
def build_tb_notas_geo_from_cleaned (files : ℤ → Option Frame) :
    List ℤ → Except String (List String × List GeoGroup)
  | [] => .ok ([], [])
  | y :: ys =>
    match files y with
    | none =>
      (build_tb_notas_geo_from_cleaned files ys).map
        (fun p => (warnMissing y :: p.1, p.2))
    | some f =>
      (build_tb_notas_geo_from_cleaned files ys).map
        (fun p => (p.1, aggregateGeo f.cols f.rows ++ p.2))

/-- `Q006_MAP` of silver_to_gold.py (lines 716-734): household-income answer
letter to income-class label. -/
def Q006_MAP : List (String × String) :=
  [("A", "Sem Renda"),
   ("B", "Classe E (< 2 SM)"), ("C", "Classe E (< 2 SM)"),
   ("D", "Classe D (2-4 SM)"), ("E", "Classe D (2-4 SM)"),
   ("F", "Classe C (4-10 SM)"), ("G", "Classe C (4-10 SM)"),
   ("H", "Classe B (10-20 SM)"), ("I", "Classe B (10-20 SM)"),
   ("J", "Classe B (10-20 SM)"), ("K", "Classe B (10-20 SM)"),
   ("L", "Classe B (10-20 SM)"),
   ("M", "Classe A (> 20 SM)"), ("N", "Classe A (> 20 SM)"),
   ("O", "Classe A (> 20 SM)"), ("P", "Classe A (> 20 SM)"),
   ("Q", "Classe A (> 20 SM)")]

/-- The columns `build_tb_socio_economico_from_cleaned` reads
(silver_to_gold.py lines 746-754). -/
def SOCIO_COLUMNS : List String :=
  ["Q006", "TP_PRESENCA_CN", "TP_PRESENCA_CH", "TP_PRESENCA_LC",
   "TP_PRESENCA_MT", "TP_STATUS_REDACAO"] ++ NOTA_COLUMNS

/-- The quality mask of the socio-economic builder (lines 775-781): present
on all four exam components and a regular essay status (NA compares
unequal). -/
def socioPresent (r : Row) : Bool :=
  decide (getVal r "TP_PRESENCA_CN" = Value.num 1) &&
  decide (getVal r "TP_PRESENCA_CH" = Value.num 1) &&
  decide (getVal r "TP_PRESENCA_LC" = Value.num 1) &&
  decide (getVal r "TP_PRESENCA_MT" = Value.num 1) &&
  decide (getVal r "TP_STATUS_REDACAO" = Value.num 1)

/-- `NOTA_GERAL` (line 788): `mean(axis=1)` over the five subject scores,
skipping nulls, null when all five are null. -/
def notaGeral (r : Row) : Option ℚ :=
  if (NOTA_COLUMNS.filterMap (fun c => pyToNumeric (getVal r c))).length = 0
  then none
  else some ((NOTA_COLUMNS.filterMap
      (fun c => pyToNumeric (getVal r c))).sum
    / ((NOTA_COLUMNS.filterMap
      (fun c => pyToNumeric (getVal r c))).length : ℚ))

/-- `CLASSE` (line 791): `Q006` mapped through `Q006_MAP`, null for unmapped
or non-string answers (later dropped by `dropna(subset=["CLASSE"])`). -/
def socioClassOf (r : Row) : Option String :=
  match getVal r "Q006" with
  | Value.str s => (Q006_MAP.find? (fun p => p.1 = s)).map Prod.snd
  | _ => none

/-- Pandas linear-interpolation quantile over the sorted values (the `agg`
lambdas at lines 800-802); defined for a non-empty list. -/
def quantileLinear (l : List ℚ) (p : ℚ) : ℚ :=
  let sorted := l.mergeSort (fun a b => decide (a ≤ b))
  let pos := p * ((sorted.length : ℚ) - 1)
  let i := (⌊pos⌋).toNat
  let lo := sorted.getD i 0
  let hi := sorted.getD (i + 1) lo
  lo + (pos - (⌊pos⌋ : ℚ)) * (hi - lo)

/-- One row of the socio-economic aggregate: income class with the five-point
summary of `NOTA_GERAL` (null for a class whose scores are all null). -/
structure SocioStats where
  classe : String
  low : Option ℚ
  q1 : Option ℚ
  median : Option ℚ
  q3 : Option ℚ
  high : Option ℚ
  count : ℕ
deriving DecidableEq, Repr

/-- Five-point summary of a class's `NOTA_GERAL` values. -/
def socioStatsOf (classe : String) (vals : List ℚ) : SocioStats :=
  match vals with
  | [] => ⟨classe, none, none, none, none, none, 0⟩
  | q :: qs =>
    ⟨classe, some (qs.foldl min q), some (quantileLinear (q :: qs) (1 / 4)),
     some (quantileLinear (q :: qs) (1 / 2)),
     some (quantileLinear (q :: qs) (3 / 4)), some (qs.foldl max q),
     (q :: qs).length⟩

/-- The per-year body of `build_tb_socio_economico_from_cleaned`
(silver_to_gold.py lines 772-809): quality mask, `NOTA_GERAL`, class
mapping with dropna, and the per-class five-point summary (classes in the
sorted order `groupby` produces; the builder's final cross-year categorical
reordering, lines 817-829, is a presentation step). -/
def socioAggregateYear (rows : List Row) : List SocioStats :=
  let wc := (rows.filter socioPresent).filterMap
    (fun r => (socioClassOf r).map (fun c => (c, notaGeral r)))
  ((firstOccur (wc.map Prod.fst) []).mergeSort
      (fun a b => decide (a ≤ b))).map
    (fun c => socioStatsOf c
      ((wc.filter (fun p => p.1 = c)).filterMap Prod.snd))

/-- The warning the socio builder logs when the cleaned file lacks the
required columns (lines 764-770).  A missing file logs nothing. -/
def warnSocioCols (y : ℤ) : String :=
  "Colunas socioeconomicas ausentes para o ano " ++ toString y ++ "; pulando."

/-- `build_tb_socio_economico_from_cleaned` (silver_to_gold.py lines
737-834): a year with no cleaned file is skipped silently — `continue`
with no log call (lines 757-759); a file missing the required columns is
skipped with a warning; other years contribute their per-class summary. -/
def build_tb_socio_economico_from_cleaned (files : ℤ → Option Frame) :
    List ℤ → Except String (List String × List (ℤ × List SocioStats))
  | [] => .ok ([], [])
  | y :: ys =>
    match files y with
    | none => build_tb_socio_economico_from_cleaned files ys
    | some f =>
      if SOCIO_COLUMNS.all (fun c => decide (c ∈ f.cols)) then
        (build_tb_socio_economico_from_cleaned files ys).map
          (fun p => (p.1, (y, socioAggregateYear f.rows) :: p.2))
      else
        (build_tb_socio_economico_from_cleaned files ys).map
          (fun p => (warnSocioCols y :: p.1, p.2))

/-- `DataCheckResult` of infra/data_quality.py. -/
structure DataCheckResult where
  name : String
  passed : Bool
  severity : String
  details : String
deriving DecidableEq, Repr

/-- The observable state of the dashboard DuckDB database: `COUNT(*)` per
table and, per table and column set, the number of rows matching the
out-of-range predicate of `_check_notas_range`. -/
structure DashboardDB where
  rowCount : String → ℤ
  outOfRange : String → List String → ℤ

/-- `_check_row_count_positive` (data_quality.py lines 23-36). -/
def checkRowCountPositive (db : DashboardDB) (table : String) (minRows : ℤ) :
    DataCheckResult :=
  ⟨table ++ ".row_count>= " ++ toString minRows,
   decide (minRows ≤ db.rowCount table), "error",
   "row_count=" ++ toString (db.rowCount table)⟩

/-- `_check_notas_range` (data_quality.py lines 39-64). -/
def checkNotasRange (db : DashboardDB) (table : String)
    (columns : List String) : DataCheckResult :=
  ⟨table ++ ".notas_in_range[0.0,1000.0]",
   decide (db.outOfRange table columns = 0), "error",
   "out_of_range_rows=" ++ toString (db.outOfRange table columns)⟩

/-- The stats-table range columns checked by `run_dashboard_data_checks`. -/
def RANGE_COLUMNS_STATS : List String :=
  (NOTA_COLUMNS.map (fun p => ["min", "max", "mean"].map
    (fun suf => p ++ "_" ++ suf))).flatten

/-- The geo-table range columns checked by `run_dashboard_data_checks`. -/
def RANGE_COLUMNS_GEO : List String := NOTA_COLUMNS.map (fun p => p ++ "_mean")

/-- One log line per check result (data_quality.py lines 118-127). -/
def logLine (c : DataCheckResult) : String :=
  "[data-quality] " ++ c.name ++ " | passed=" ++ toString c.passed ++
  " | severity=" ++ c.severity ++ " | " ++ c.details

/-- `run_dashboard_data_checks` (data_quality.py lines 67-129): the five
checks in order, each logged (pass or fail) before returning.  Returns
(checks, log lines). -/
def run_dashboard_data_checks (db : DashboardDB) :
    List DataCheckResult × List String :=
  let checks :=
    [checkRowCountPositive db "tb_notas" 1,
     checkRowCountPositive db "tb_notas_stats" 1,
     checkRowCountPositive db "tb_notas_geo" 1,
     checkNotasRange db "tb_notas_stats" RANGE_COLUMNS_STATS,
     checkNotasRange db "tb_notas_geo" RANGE_COLUMNS_GEO]
  (checks, checks.map logLine)

/-- `assert_dashboard_data_checks` (data_quality.py lines 132-142): run the
checks (which logs every result), then raise iff some check with severity
"error" failed.  Returns the emitted log lines alongside the outcome. -/
def assert_dashboard_data_checks (db : DashboardDB) :
    List String × Except String Unit :=
  let rc := run_dashboard_data_checks db
  let failing := rc.1.filter (fun c => !c.passed && c.severity == "error")
  (rc.2,
   if failing.isEmpty then .ok ()
   else .error ("Falhas em checks de dados do dashboard: "
     ++ String.intercalate "; "
       (failing.map (fun c => c.name ++ " (" ++ c.details ++ ")"))))

/-- Python `int()` on a rational: truncation toward zero. -/
def pyTrunc (q : ℚ) : ℤ := if 0 ≤ q then ⌊q⌋ else -⌊-q⌋

/-- `_calculate_chunk_rows` (config/hardware.py lines 77-91) without the
`ENEM_CSV_CHUNK_ROWS` environment override: a quarter of the pipeline RAM
budget divided by the estimated per-row byte cost, clamped to
`[150_000, 1_500_000]`. -/
def calculateChunkRows (maxRamPipelineGb : ℚ) (estimatedRowBytes : ℤ) : ℤ :=
  let bytesBudget := maxRamPipelineGb * ((1024 : ℚ) ^ 3) * (1 / 4)
  let chunkRows := pyTrunc (bytesBudget / ((max estimatedRowBytes 200 : ℤ) : ℚ))
  max 150000 (min chunkRows 1500000)

/-- `ColumnSpec` of data/raw_to_silver.py: canonical target name, ordered
alias list, value kind. -/
structure ColumnSpec where
  target : String
  aliases : List String
  kind : String
deriving DecidableEq, Repr

/-- `BASE_COLUMNS` of data/raw_to_silver.py (lines 50-103). -/
def BASE_COLUMNS : List ColumnSpec :=
  [⟨"ID_INSCRICAO",
    ["NU_SEQUENCIAL", "ID_INSCRICAO", "NU_INSCRICAO", "INSCRICAO"], "string"⟩,
   ⟨"ANO", ["ANO", "NU_ANO"], "integer"⟩,
   ⟨"SG_UF_PROVA", ["SG_UF_PROVA", "SG_UF_RESIDENCIA", "UF_PROVA"], "upper"⟩,
   ⟨"CO_MUNICIPIO_PROVA",
    ["CO_MUNICIPIO_PROVA", "CO_MUNICIPIO_RESIDENCIA", "COD_MUNICIPIO_PROVA"],
    "string"⟩,
   ⟨"NO_MUNICIPIO_PROVA",
    ["NO_MUNICIPIO_PROVA", "NO_MUNICIPIO_RESIDENCIA", "MUNICIPIO_PROVA"],
    "string"⟩,
   ⟨"TP_SEXO", ["TP_SEXO", "SEXO", "CAT_SEXO"], "upper"⟩,
   ⟨"TP_COR_RACA", ["TP_COR_RACA", "TP_ETNIA"], "integer"⟩,
   ⟨"TP_FAIXA_ETARIA", ["TP_FAIXA_ETARIA"], "integer"⟩,
   ⟨"NU_IDADE", ["NU_IDADE", "IDADE"], "integer"⟩,
   ⟨"Q006", ["Q006", "Q06"], "string"⟩,
   ⟨"TP_PRESENCA_CN", ["TP_PRESENCA_CN"], "integer"⟩,
   ⟨"TP_PRESENCA_CH", ["TP_PRESENCA_CH"], "integer"⟩,
   ⟨"TP_PRESENCA_LC", ["TP_PRESENCA_LC"], "integer"⟩,
   ⟨"TP_PRESENCA_MT", ["TP_PRESENCA_MT"], "integer"⟩,
   ⟨"TP_STATUS_REDACAO", ["TP_STATUS_REDACAO"], "integer"⟩,
   ⟨"NOTA_CIENCIAS_NATUREZA",
    ["NOTA_CIENCIAS_NATUREZA", "NU_NOTA_CN", "NOTA_CN", "NT_CN"], "numeric"⟩,
   ⟨"NOTA_CIENCIAS_HUMANAS",
    ["NOTA_CIENCIAS_HUMANAS", "NU_NOTA_CH", "NOTA_CH", "NT_CH"], "numeric"⟩,
   ⟨"NOTA_LINGUAGENS_CODIGOS",
    ["NOTA_LINGUAGENS_CODIGOS", "NU_NOTA_LC", "NOTA_LC", "NT_LC"], "numeric"⟩,
   ⟨"NOTA_MATEMATICA",
    ["NOTA_MATEMATICA", "NU_NOTA_MT", "NOTA_MT", "NT_MT"], "numeric"⟩,
   ⟨"NOTA_REDACAO",
    ["NOTA_REDACAO", "NU_NOTA_REDACAO", "NU_NOTA_COMP5", "NT_REDACAO"],
    "numeric"⟩]

/-- `_select_source_column` (raw_to_silver.py lines 129-133): the first alias
present among the frame's columns, else `None`. -/
def selectSourceColumn (cols : List String) (aliases : List String) :
    Option String :=
  aliases.find? (fun a => decide (a ∈ cols))

/-- The dtype `_empty_series` uses for each column kind
(raw_to_silver.py lines 236-241). -/
def dtypeOf (kind : String) : String :=
  if kind = "numeric" then "Float64"
  else if kind = "integer" then "Int64"
  else "string"

/-- A typed pandas series: dtype tag plus cell values. -/
structure PySeries where
  dtype : String
  vals : List Value
deriving DecidableEq, Repr

/-- `_empty_series` (raw_to_silver.py lines 236-241): a column of NA values
with the nullable dtype appropriate to the kind. -/
def emptySeries (length : ℕ) (kind : String) : PySeries :=
  ⟨dtypeOf kind, List.replicate length Value.null⟩

/-- `_coerce_string` on one cell: strip (and optionally upper-case); a
numeric cell is rendered as its string form, NA stays NA. -/
def coerceStringCell (upper : Bool) : Value → Value
  | .null => .null
  | .str s => .str (if upper then s.trim.toUpper else s.trim)
  | .num q => .str (if upper then (toString q).toUpper else toString q)

/-- Pandas `.round()`: round half to even. -/
def pyRound (q : ℚ) : ℤ :=
  let f := ⌊q⌋
  let frac := q - (f : ℚ)
  if frac < 1 / 2 then f
  else if 1 / 2 < frac then f + 1
  else if f % 2 = 0 then f else f + 1

/-- `_coerce_numeric` on one cell (raw_to_silver.py lines 143-153): render as
string, replace the Brazilian decimal comma by a dot, coerce; malformed cells
become NA; integer kind rounds. -/
def coerceNumericCell (integer : Bool) : Value → Value
  | .null => .null
  | .num q => if integer then .num ((pyRound q : ℤ) : ℚ) else .num q
  | .str s =>
    match parseRat (s.replace "," ".") with
    | some q => if integer then .num ((pyRound q : ℤ) : ℚ) else .num q
    | none => .null

/-- `_coerce_column` (raw_to_silver.py lines 244-257): pick the first present
alias and coerce it by kind; with no alias present the output is a full-NA
series of the kind's dtype; an unknown kind raises `ValueError`. -/
def coerceColumn (cols : List String) (rows : List Row) (spec : ColumnSpec) :
    Except String PySeries :=
  match selectSourceColumn cols spec.aliases with
  | none => .ok (emptySeries rows.length spec.kind)
  | some source =>
    let src := rows.map (fun r => getVal r source)
    if spec.kind = "string" then .ok ⟨"string", src.map (coerceStringCell false)⟩
    else if spec.kind = "upper" then
      .ok ⟨"string", src.map (coerceStringCell true)⟩
    else if spec.kind = "integer" then
      .ok ⟨"Int64", src.map (coerceNumericCell true)⟩
    else if spec.kind = "numeric" then
      .ok ⟨"Float64", src.map (coerceNumericCell false)⟩
    else .error ("Tipo de coluna desconhecido: " ++ spec.kind)

section Lemmas

lemma length_filter_partition {α : Type} (p : α → Bool) (l : List α) :
    (l.filter p).length + (l.filter (fun a => !p a)).length = l.length := by
  induction l with
  | nil => rfl
  | cons x xs ih =>
    by_cases hx : p x
    · simp [List.filter, hx, ← ih]
      omega
    · simp [List.filter, hx, ← ih]
      omega

lemma dedupStep_partition {α : Type} [DecidableEq α] (key : Row → α)
    (l : List Row) (seen : List α) :
    (dedupStep key l seen).1.length + (dedupStep key l seen).2.1.length
      = l.length := by
  induction l generalizing seen with
  | nil => rfl
  | cons r rs ih =>
    by_cases h : key r ∈ seen
    · simp [dedupStep, h, ← ih seen]
      omega
    · simp [dedupStep, h, ← ih (key r :: seen)]
      omega

lemma applyDomains_length (frameCols numCols : List String)
    (meta : List MetaDomain) (rows : List Row) :
    ((applyDomains frameCols numCols meta rows).1).length = rows.length := by
  induction meta generalizing rows with
  | nil => rfl
  | cons m rest ih =>
    by_cases hc : m.nome_padrao ∈ frameCols
    · by_cases hcnt :
        rows.countP (domainInvalid m.dominio_valores m.nome_padrao) ≠ 0
      · simp [applyDomains, hc, hcnt, ih]
      · simp [applyDomains, hc, hcnt, ih]
    · simp [applyDomains, hc, ih]

end Lemmas

/-- C10: `run_cleaning_pipeline` partitions its input rows — the cleaned
output, the invalid-row quarantine and the duplicates quarantine together
account for every input row (domain correction rewrites cells in place and
never adds or removes rows). -/
theorem cleaning_partitions_input_rows (frame : Frame)
    (meta : List MetaDomain) :
    (run_cleaning_pipeline frame meta).cleaned_df.length
      + (run_cleaning_pipeline frame meta).invalid_rows.length
      + (run_cleaning_pipeline frame meta).duplicates.length
      = frame.rows.length := by
  unfold run_cleaning_pipeline cleanCore
  by_cases hid : "ID_INSCRICAO" ∈ frame.cols
  · simp only [hid, if_pos, applyDomains_length]
    have hd := dedupStep_partition fullKey
      (frame.rows.filter (fun r => !invalidRow frame.cols r)) []
    have hp := length_filter_partition (invalidRow frame.cols) frame.rows
    omega
  · simp only [hid, if_neg, not_false_iff, applyDomains_length]
    have hp := length_filter_partition (invalidRow frame.cols) frame.rows
    simp only [List.length_nil]
    omega

/-- C9: without an environment override, the derived CSV chunk-row count is
clamped to `[150_000, 1_500_000]` for every RAM budget and per-row byte
estimate. -/
theorem chunk_rows_clamped (maxRamPipelineGb : ℚ) (estimatedRowBytes : ℤ) :
    150000 ≤ calculateChunkRows maxRamPipelineGb estimatedRowBytes
      ∧ calculateChunkRows maxRamPipelineGb estimatedRowBytes ≤ 1500000 := by
  unfold calculateChunkRows
  constructor
  · exact le_max_left _ _
  · exact max_le (by norm_num) (min_le_right _ _)

/-- C7: the quality gate raises iff at least one severity-"error" check
fails, and every check result is logged (the log lines are exactly one line
per check, produced whether or not the gate subsequently raises). -/
theorem assert_checks_raises_iff_error_failure (db : DashboardDB) :
    ((∃ e, (assert_dashboard_data_checks db).2 = .error e) ↔
      ∃ c ∈ (run_dashboard_data_checks db).1,
        c.passed = false ∧ c.severity = "error") ∧
    (assert_dashboard_data_checks db).1
      = (run_dashboard_data_checks db).1.map logLine := by
  constructor
  · show (∃ e, (if ((run_dashboard_data_checks db).1.filter
        (fun c => !c.passed && c.severity == "error")).isEmpty then
          (Except.ok () : Except String Unit)
        else .error _) = .error _) ↔ _
    by_cases hf : ((run_dashboard_data_checks db).1.filter
        (fun c => !c.passed && c.severity == "error")).isEmpty
    · simp only [hf, if_pos]
      constructor
      · rintro ⟨e, he⟩
        exact absurd he (by simp)
      · rintro ⟨c, hc, hp, hs⟩
        rw [List.isEmpty_iff, List.filter_eq_nil_iff] at hf
        exact absurd (by simp [hp, hs] : (!c.passed && c.severity == "error")
          = true) (by simpa using hf c hc)
    · simp only [hf, if_neg]
      constructor
      · intro _
        rw [List.isEmpty_iff, List.filter_eq_nil_iff] at hf
        push_neg at hf
        obtain ⟨c, hc, hval⟩ := hf
        simp only [Bool.and_eq_true, Bool.not_eq_true', beq_iff_eq] at hval
        exact ⟨c, hc, hval.1, hval.2⟩
      · intro _
        exact ⟨_, rfl⟩
  · rfl

section RangeLemmas

lemma validScores_mem (vals : List Value) :
    ∀ q ∈ validScores vals, 0 ≤ q ∧ q ≤ 1000 := by
  intro q hq
  unfold validScores at hq
  rw [List.mem_filter] at hq
  have := hq.2
  simp only [Bool.and_eq_true, decide_eq_true_eq] at this
  exact this

lemma list_sum_bounds (l : List ℚ) (h : ∀ q ∈ l, 0 ≤ q ∧ q ≤ 1000) :
    0 ≤ l.sum ∧ l.sum ≤ 1000 * l.length := by
  induction l with
  | nil => simp
  | cons x xs ih =>
    have hx := h x (List.mem_cons_self x xs)
    have hxs := ih (fun q hq => h q (List.mem_cons_of_mem x hq))
    simp only [List.sum_cons, List.length_cons]
    constructor
    · exact add_nonneg hx.1 hxs.1
    · push_cast
      nlinarith [hx.2, hxs.2]

lemma mean_bounds (l : List ℚ) (h : ∀ q ∈ l, 0 ≤ q ∧ q ≤ 1000)
    (hne : l ≠ []) : 0 ≤ l.sum / l.length ∧ l.sum / l.length ≤ 1000 := by
  have hlen : (0 : ℚ) < l.length := by
    have : l.length ≠ 0 := fun hc => hne (List.length_eq_zero.mp hc)
    exact_mod_cast Nat.pos_of_ne_zero this
  obtain ⟨h1, h2⟩ := list_sum_bounds l h
  constructor
  · exact div_nonneg h1 (le_of_lt hlen)
  · rw [div_le_iff₀ hlen]
    linarith

lemma foldl_min_bounds (qs : List ℚ) (q : ℚ) (hq : 0 ≤ q ∧ q ≤ 1000)
    (h : ∀ x ∈ qs, 0 ≤ x ∧ x ≤ 1000) :
    0 ≤ qs.foldl min q ∧ qs.foldl min q ≤ 1000 := by
  induction qs generalizing q with
  | nil => exact hq
  | cons x xs ih =>
    have hx := h x (List.mem_cons_self x xs)
    refine ih (min q x) ⟨le_min hq.1 hx.1, le_trans (min_le_left _ _) hq.2⟩
      (fun y hy => h y (List.mem_cons_of_mem x hy))

lemma foldl_max_bounds (qs : List ℚ) (q : ℚ) (hq : 0 ≤ q ∧ q ≤ 1000)
    (h : ∀ x ∈ qs, 0 ≤ x ∧ x ≤ 1000) :
    0 ≤ qs.foldl max q ∧ qs.foldl max q ≤ 1000 := by
  induction qs generalizing q with
  | nil => exact hq
  | cons x xs ih =>
    have hx := h x (List.mem_cons_self x xs)
    refine ih (max q x) ⟨le_trans hq.1 (le_max_left _ _), max_le hq.2 hx.2⟩
      (fun y hy => h y (List.mem_cons_of_mem x hy))

lemma geoValidFlag_implies_range (cols : List String) (r : Row) (col : String)
    (h : geoValidFlag cols r col = true) : geoValidRange r col = true := by
  unfold geoValidFlag at h
  rcases hf : GEO_PRESENCE_MAP.find? (fun p => p.1 = col) with _ | p <;>
    simp only [hf] at h
  · split at h
    · split at h
      · simp only [Bool.and_eq_true] at h
        exact h.1
      · exact h
    · exact h
  · split at h
    · simp only [Bool.and_eq_true] at h
      exact h.1
    · exact h

lemma geoMaskScore_bounds (cols : List String) (r : Row) (col : String)
    (q : ℚ) (h : geoMaskScore cols r col = some q) : 0 ≤ q ∧ q ≤ 1000 := by
  unfold geoMaskScore at h
  split at h
  · rename_i hvalid
    have hr := geoValidFlag_implies_range cols r col hvalid
    unfold geoValidRange at hr
    rw [h] at hr
    simpa using hr
  · exact absurd h (by simp)

lemma ufMaskScore_bounds (r : Row) (col : String) (q : ℚ)
    (h : ufMaskScore r col = some q) : 0 ≤ q ∧ q ≤ 1000 := by
  unfold ufMaskScore at h
  split at h
  · rename_i v hv
    split at h
    · rename_i hrange
      have : v = q := by simpa using h
      subst this
      exact hrange
    · exact absurd h (by simp)
  · exact absurd h (by simp)

end RangeLemmas

/-- C4: every subject-score aggregate that the pipeline materializes is null
or in `[0, 1000]` — the yearly stats' mean/min/max (which default to `0.0`
for an empty masked series), the presence-masked municipality mean, and the
range-masked UF mean. -/
theorem aggregate_score_range_invariant (vals : List Value)
    (cols : List String) (group : List Row) (col : String) :
    (0 ≤ statsMean vals ∧ statsMean vals ≤ 1000) ∧
    (0 ≤ statsMin vals ∧ statsMin vals ≤ 1000) ∧
    (0 ≤ statsMax vals ∧ statsMax vals ≤ 1000) ∧
    (∀ q, geoScoreMean cols group col = some q → 0 ≤ q ∧ q ≤ 1000) ∧
    (∀ q, ufScoreMean group col = some q → 0 ≤ q ∧ q ≤ 1000) := by
  refine ⟨?_, ?_, ?_, ?_, ?_⟩
  · unfold statsMean
    by_cases hlen : (validScores vals).length = 0
    · simp [hlen]
    · simp only [hlen, if_neg, if_false]
      exact mean_bounds _ (validScores_mem vals)
        (fun hc => hlen (by simp [hc]))
  · unfold statsMin
    cases hv : validScores vals with
    | nil => norm_num
    | cons q qs =>
      have hmem := validScores_mem vals
      rw [hv] at hmem
      exact foldl_min_bounds qs q (hmem q (List.mem_cons_self q qs))
        (fun x hx => hmem x (List.mem_cons_of_mem q hx))
  · unfold statsMax
    cases hv : validScores vals with
    | nil => norm_num
    | cons q qs =>
      have hmem := validScores_mem vals
      rw [hv] at hmem
      exact foldl_max_bounds qs q (hmem q (List.mem_cons_self q qs))
        (fun x hx => hmem x (List.mem_cons_of_mem q hx))
  · intro q hq
    unfold geoScoreMean at hq
    split at hq
    · exact absurd hq (by simp)
    · rename_i hlen
      have : (group.filterMap (fun r => geoMaskScore cols r col)).sum
          / ((group.filterMap (fun r => geoMaskScore cols r col)).length : ℚ)
          = q := by simpa using hq
      rw [← this]
      refine mean_bounds _ ?_ (fun hc => hlen (by simp [hc]))
      intro x hx
      rw [List.mem_filterMap] at hx
      obtain ⟨r, _, hr⟩ := hx
      exact geoMaskScore_bounds cols r col x hr
  · intro q hq
    unfold ufScoreMean at hq
    split at hq
    · exact absurd hq (by simp)
    · rename_i hlen
      have : (group.filterMap (fun r => ufMaskScore r col)).sum
          / ((group.filterMap (fun r => ufMaskScore r col)).length : ℚ)
          = q := by simpa using hq
      rw [← this]
      refine mean_bounds _ ?_ (fun hc => hlen (by simp [hc]))
      intro x hx
      rw [List.mem_filterMap] at hx
      obtain ⟨r, _, hr⟩ := hx
      exact ufMaskScore_bounds r col x hr

/-- C5: in every geo aggregate row, each subject's valid-score count is at
most `INSCRITOS`, in both aggregation paths — the pandas path, whose
`nunique` runs after `astype(str)` on the identifiers, and the DuckDB path,
whose `COUNT(DISTINCT ID_INSCRICAO)` drops NULL identifiers.  The cleaned
layer's candidate records carry pairwise-distinct, non-null string
identifiers, reflected by the two hypotheses, under which either enrollment
count equals the group size. -/
theorem geo_subject_count_le_inscritos (cols : List String)
    (group : List Row) (col : String)
    (hp : "ID_INSCRICAO" ∈ cols → (group.map streamKey).Nodup)
    (hd : "ID_INSCRICAO" ∈ cols →
      (group.map fullKey).Nodup ∧ ∀ r ∈ group, fullKey r ≠ Value.null) :
    geoScoreCount cols group col ≤ geoInscritos cols group ∧
    duckdbScoreCount cols group col ≤ duckdbInscritos cols group := by
  constructor
  · unfold geoScoreCount geoInscritos
    by_cases hid : "ID_INSCRICAO" ∈ cols
    · rw [if_pos hid, (hp hid).dedup, List.length_map]
      exact List.length_filterMap_le _ _
    · rw [if_neg hid]
      exact List.length_filterMap_le _ _
  · unfold duckdbScoreCount duckdbInscritos
    by_cases hid : "ID_INSCRICAO" ∈ cols
    · obtain ⟨hnodup, hnn⟩ := hd hid
      have hall : (group.map fullKey).filter (fun v => v ≠ Value.null)
          = group.map fullKey := by
        rw [List.filter_eq_self]
        intro v hv
        obtain ⟨r, hr, hrv⟩ := List.mem_map.mp hv
        simpa using hrv ▸ hnn r hr
      rw [if_pos hid, hall, hnodup.dedup, List.length_map]
      exact List.length_filterMap_le _ _
    · rw [if_neg hid]
      exact List.length_filterMap_le _ _

/-- Witness for C5 at a concrete two-candidate group with distinct non-null
string identifiers. -/
theorem geo_subject_count_le_inscritos_witness :
    geoScoreCount ["ID_INSCRICAO", "NOTA_MATEMATICA", "TP_PRESENCA_MT"]
      [[("ID_INSCRICAO", Value.str "1"),
        ("NOTA_MATEMATICA", Value.num 650), ("TP_PRESENCA_MT", Value.num 1)],
       [("ID_INSCRICAO", Value.str "2"),
        ("NOTA_MATEMATICA", Value.num 700), ("TP_PRESENCA_MT", Value.num 0)]]
      "NOTA_MATEMATICA"
      ≤ geoInscritos ["ID_INSCRICAO", "NOTA_MATEMATICA", "TP_PRESENCA_MT"]
      [[("ID_INSCRICAO", Value.str "1"),
        ("NOTA_MATEMATICA", Value.num 650), ("TP_PRESENCA_MT", Value.num 1)],
       [("ID_INSCRICAO", Value.str "2"),
        ("NOTA_MATEMATICA", Value.num 700), ("TP_PRESENCA_MT", Value.num 0)]]
    ∧ duckdbScoreCount ["ID_INSCRICAO", "NOTA_MATEMATICA", "TP_PRESENCA_MT"]
      [[("ID_INSCRICAO", Value.str "1"),
        ("NOTA_MATEMATICA", Value.num 650), ("TP_PRESENCA_MT", Value.num 1)],
       [("ID_INSCRICAO", Value.str "2"),
        ("NOTA_MATEMATICA", Value.num 700), ("TP_PRESENCA_MT", Value.num 0)]]
      "NOTA_MATEMATICA"
      ≤ duckdbInscritos ["ID_INSCRICAO", "NOTA_MATEMATICA", "TP_PRESENCA_MT"]
      [[("ID_INSCRICAO", Value.str "1"),
        ("NOTA_MATEMATICA", Value.num 650), ("TP_PRESENCA_MT", Value.num 1)],
       [("ID_INSCRICAO", Value.str "2"),
        ("NOTA_MATEMATICA", Value.num 700), ("TP_PRESENCA_MT", Value.num 0)]] :=
  geo_subject_count_le_inscritos _ _ _ (fun _ => by decide)
    (fun _ => by decide)

/-- Witness for C4 at concrete inputs: the stats bounds at a one-score series
and the geo/UF mean bounds at a group whose masked mean is `650`. -/
theorem aggregate_score_range_invariant_witness :
    (0 ≤ statsMean [Value.num 650] ∧ statsMean [Value.num 650] ≤ 1000) ∧
    (0 ≤ (650 : ℚ) ∧ (650 : ℚ) ≤ 1000) ∧
    (0 ≤ (700 : ℚ) ∧ (700 : ℚ) ≤ 1000) := by
  refine ⟨(aggregate_score_range_invariant [Value.num 650] [] [] "X").1,
    (aggregate_score_range_invariant []
      ["ID_INSCRICAO", "NOTA_MATEMATICA", "TP_PRESENCA_MT"]
      [[("ID_INSCRICAO", Value.str "1"),
        ("NOTA_MATEMATICA", Value.num 650), ("TP_PRESENCA_MT", Value.num 1)]]
      "NOTA_MATEMATICA").2.2.2.1 650 ?_,
    (aggregate_score_range_invariant [] []
      [[("NOTA_MATEMATICA", Value.num 700)]]
      "NOTA_MATEMATICA").2.2.2.2 700 ?_⟩
  · unfold geoScoreMean
    rw [show List.filterMap
        (fun r => geoMaskScore
          ["ID_INSCRICAO", "NOTA_MATEMATICA", "TP_PRESENCA_MT"] r
          "NOTA_MATEMATICA")
        [[("ID_INSCRICAO", Value.str "1"),
          ("NOTA_MATEMATICA", Value.num 650),
          ("TP_PRESENCA_MT", Value.num 1)]] = [650] from by decide]
    norm_num
  · unfold ufScoreMean
    rw [show List.filterMap (fun r => ufMaskScore r "NOTA_MATEMATICA")
        [[("NOTA_MATEMATICA", Value.num 700)]] = [700] from by decide]
    norm_num

section FindLemmas

lemma find?_first_present {α : Type} (p : α → Bool) (l1 : List α) (a : α)
    (l2 : List α) (ha : p a = true) (hl1 : ∀ b ∈ l1, p b = false) :
    (l1 ++ a :: l2).find? p = some a := by
  induction l1 with
  | nil => simp [List.find?, ha]
  | cons x xs ih =>
    have hx := hl1 x (List.mem_cons_self x xs)
    simp only [List.cons_append, List.find?, hx]
    exact ih (fun b hb => hl1 b (List.mem_cons_of_mem x hb))

lemma base_columns_kinds : ∀ spec ∈ BASE_COLUMNS,
    spec.kind = "string" ∨ spec.kind = "upper" ∨ spec.kind = "integer"
      ∨ spec.kind = "numeric" := by decide

end FindLemmas

/-- C8: for every canonical column of the normalizer schema, the first alias
(in declared order) present among the source batch's columns is selected; when
no alias is present the output is a full-NA series of the kind-appropriate
nullable dtype, and `_coerce_column` returns without raising. -/
theorem normalizer_alias_selection (cols : List String) (rows : List Row)
    (spec : ColumnSpec) (hspec : spec ∈ BASE_COLUMNS) :
    (∀ l1 a l2, spec.aliases = l1 ++ a :: l2 → a ∈ cols →
      (∀ b ∈ l1, b ∉ cols) →
      selectSourceColumn cols spec.aliases = some a) ∧
    ((∀ a ∈ spec.aliases, a ∉ cols) →
      coerceColumn cols rows spec = .ok (emptySeries rows.length spec.kind)) ∧
    (coerceColumn cols rows spec).isOk = true := by
  refine ⟨?_, ?_, ?_⟩
  · intro l1 a l2 heq ha hl1
    unfold selectSourceColumn
    rw [heq]
    exact find?_first_present _ l1 a l2 (by simpa using ha)
      (fun b hb => by simpa using hl1 b hb)
  · intro hnone
    have hsel : selectSourceColumn cols spec.aliases = none := by
      unfold selectSourceColumn
      rw [List.find?_eq_none]
      intro a ha
      simpa using hnone a ha
    unfold coerceColumn
    rw [hsel]
  · rcases hsel : selectSourceColumn cols spec.aliases with _ | source
    · unfold coerceColumn
      rw [hsel]
      rfl
    · rcases base_columns_kinds spec hspec with h | h | h | h <;>
        (unfold coerceColumn; rw [hsel]; simp only [h]; rfl)

/-- Witness for C8: for the math-score column with a 1998-style header, the
second alias `NU_NOTA_MT` is selected; with no alias present the column is
all-NA with dtype `Float64`. -/
theorem normalizer_alias_selection_witness :
    selectSourceColumn ["NU_INSCRICAO", "NU_NOTA_MT"]
      ["NOTA_MATEMATICA", "NU_NOTA_MT", "NOTA_MT", "NT_MT"]
      = some "NU_NOTA_MT" ∧
    coerceColumn ["X"] [[("X", Value.str "a")], [("X", Value.str "b")]]
      ⟨"NOTA_MATEMATICA", ["NOTA_MATEMATICA", "NU_NOTA_MT", "NOTA_MT",
        "NT_MT"], "numeric"⟩
      = .ok (emptySeries 2 "numeric") :=
  ⟨(normalizer_alias_selection ["NU_INSCRICAO", "NU_NOTA_MT"] []
      ⟨"NOTA_MATEMATICA", ["NOTA_MATEMATICA", "NU_NOTA_MT", "NOTA_MT",
        "NT_MT"], "numeric"⟩ (by decide)).1
    ["NOTA_MATEMATICA"] "NU_NOTA_MT" ["NOTA_MT", "NT_MT"] rfl
    (by decide) (by decide),
   (normalizer_alias_selection ["X"]
      [[("X", Value.str "a")], [("X", Value.str "b")]]
      ⟨"NOTA_MATEMATICA", ["NOTA_MATEMATICA", "NU_NOTA_MT", "NOTA_MT",
        "NT_MT"], "numeric"⟩ (by decide)).2.1 (by decide)⟩

/-- Spec scenario row `{id:1, year:2020, score_math:650, presence_math:1}`. -/
def c1Row1 : Row :=
  [("ID_INSCRICAO", Value.str "1"), ("ANO", Value.num 2020),
   ("SG_UF_PROVA", Value.str "SP"), ("CO_MUNICIPIO_PROVA", Value.num 3550308),
   ("NO_MUNICIPIO_PROVA", Value.str "Sao Paulo"),
   ("NOTA_MATEMATICA", Value.num 650), ("TP_PRESENCA_MT", Value.num 1)]

/-- Spec scenario row `{id:2, year:2020, score_math:1200, presence_math:1}`
(out of range). -/
def c1Row2 : Row :=
  [("ID_INSCRICAO", Value.str "2"), ("ANO", Value.num 2020),
   ("SG_UF_PROVA", Value.str "SP"), ("CO_MUNICIPIO_PROVA", Value.num 3550308),
   ("NO_MUNICIPIO_PROVA", Value.str "Sao Paulo"),
   ("NOTA_MATEMATICA", Value.num 1200), ("TP_PRESENCA_MT", Value.num 1)]

/-- Spec scenario row `{id:3, year:2020, score_math:700, presence_math:0}`
(absent). -/
def c1Row3 : Row :=
  [("ID_INSCRICAO", Value.str "3"), ("ANO", Value.num 2020),
   ("SG_UF_PROVA", Value.str "SP"), ("CO_MUNICIPIO_PROVA", Value.num 3550308),
   ("NO_MUNICIPIO_PROVA", Value.str "Sao Paulo"),
   ("NOTA_MATEMATICA", Value.num 700), ("TP_PRESENCA_MT", Value.num 0)]

/-- The three scenario rows of the spec's concrete test. -/
def c1ScenarioRows : List Row := [c1Row1, c1Row2, c1Row3]

/-- The frame columns of the scenario. -/
def c1Cols : List String :=
  ["ID_INSCRICAO", "ANO", "SG_UF_PROVA", "CO_MUNICIPIO_PROVA",
   "NO_MUNICIPIO_PROVA", "NOTA_MATEMATICA", "TP_PRESENCA_MT"]

/-- The scenario's math-score column as `_aggregate_stats` reads it. -/
def c1MathVals : List Value :=
  c1ScenarioRows.map (fun r => getVal r "NOTA_MATEMATICA")

/-- C1 counterexample: the year-only aggregator `_aggregate_stats` (the
grouping the scenario's "(2020)" aggregate uses) masks only by range and
never consults presence flags, so the scenario yields `math_count = 2` and
`math_mean = 675` — not the claimed `math_count = 1`, `math_mean = 650`. -/
theorem stats_math_scenario_ignores_presence :
    statsCount c1MathVals = 2 ∧ statsMean c1MathVals = 675 ∧
    ¬ (statsCount c1MathVals = 1 ∧ statsMean c1MathVals = 650) := by
  have hv : validScores c1MathVals = [650, 700] := by decide
  have hcount : statsCount c1MathVals = 2 := by
    unfold statsCount
    rw [hv]
    rfl
  have hmean : statsMean c1MathVals = 675 := by
    unfold statsMean
    rw [hv]
    norm_num
  exact ⟨hcount, hmean,
    fun h => absurd (hcount ▸ h.1) (by norm_num)⟩

/-- C1 amended: presence-before-average holds in the DuckDB path of the
municipality (geo) aggregation, which reads the cleaned parquet directly: a
subject score is excluded whenever its presence flag (for `NOTA_REDACAO`:
`TP_PRESENCA_LC`) does not coerce to 1, or the score is out of `[0, 1000]`;
on the scenario rows that path yields `math_count = 1`, `math_mean = 650`.
In the pandas fallback path, `_clean_columns` first drops every presence
column (they are never among its `desired_cols`), so the masking loop's
presence guards never fire there and the scenario yields `math_count = 2`,
`math_mean = 675` — range-only masking, like the stats and UF aggregates. -/
theorem geo_presence_masking_amended :
    (∀ cols r col pres, (col, pres) ∈ DUCKDB_PRESENCE_MAP → pres ∈ cols →
      pyToNumeric (getVal r pres) ≠ some 1 →
      duckdbMaskScore cols r col = none) ∧
    (∀ cols r col q, pyToNumeric (getVal r col) = some q →
      (q < 0 ∨ 1000 < q) → duckdbMaskScore cols r col = none) ∧
    duckdbScoreCount c1Cols c1ScenarioRows "NOTA_MATEMATICA" = 1 ∧
    duckdbScoreMean c1Cols c1ScenarioRows "NOTA_MATEMATICA" = some 650 ∧
    (∀ cols pres, pres ∈ GEO_PRESENCE_MAP.map Prod.snd
        ∨ pres = "TP_STATUS_REDACAO" →
      pres ∉ cleanColumnsCols cols GEO_COLUMNS) ∧
    geoScoreCount (cleanColumnsCols c1Cols GEO_COLUMNS) c1ScenarioRows
      "NOTA_MATEMATICA" = 2 ∧
    geoScoreMean (cleanColumnsCols c1Cols GEO_COLUMNS) c1ScenarioRows
      "NOTA_MATEMATICA" = some 675 := by
  have hduck : List.filterMap
      (fun r => duckdbMaskScore c1Cols r "NOTA_MATEMATICA")
      c1ScenarioRows = [650] := by decide
  have hpand : List.filterMap
      (fun r => geoMaskScore (cleanColumnsCols c1Cols GEO_COLUMNS) r
        "NOTA_MATEMATICA")
      c1ScenarioRows = [650, 700] := by decide
  refine ⟨?_, ?_, ?_, ?_, ?_, ?_, ?_⟩
  · intro cols r col pres hmem hpres hflag
    have hflag2 : duckdbValidFlag cols r col = false := by
      have hfind : DUCKDB_PRESENCE_MAP.find? (fun p => p.1 = col)
          = some (col, pres) := by
        simp only [DUCKDB_PRESENCE_MAP, List.mem_cons, List.not_mem_nil,
          or_false] at hmem
        rcases hmem with h | h | h | h | h <;>
          (injection h with h1 h2; subst h1; subst h2; decide)
      unfold duckdbValidFlag
      rw [hfind]
      simp only [if_pos hpres]
      have : decide (pyToNumeric (getVal r pres) = some 1) = false := by
        simpa using hflag
      rw [this, Bool.and_false]
    unfold duckdbMaskScore
    rw [hflag2]
    rfl
  · intro cols r col q hq hrange
    have hflag2 : duckdbValidFlag cols r col = false := by
      by_contra hc
      have hflag : duckdbValidFlag cols r col = true := by
        revert hc
        cases duckdbValidFlag cols r col <;> simp
      have hr : geoValidRange r col = true := by
        unfold duckdbValidFlag at hflag
        simp only [Bool.and_eq_true] at hflag
        exact hflag.1
      unfold geoValidRange at hr
      rw [hq] at hr
      simp only [Bool.and_eq_true, decide_eq_true_eq] at hr
      rcases hrange with h | h
      · linarith [hr.1]
      · linarith [hr.2]
    unfold duckdbMaskScore
    rw [hflag2]
    rfl
  · unfold duckdbScoreCount
    rw [hduck]
    rfl
  · unfold duckdbScoreMean
    rw [hduck]
    norm_num
  · intro cols pres hpres hmem
    have hbase := List.mem_of_mem_filter hmem
    rcases hpres with hp | hp
    · simp only [GEO_PRESENCE_MAP, List.map_cons, List.map_nil,
        List.mem_cons, List.not_mem_nil, or_false] at hp
      rcases hp with rfl | rfl | rfl | rfl <;> revert hbase <;> decide
    · subst hp
      revert hbase
      decide
  · unfold geoScoreCount
    rw [hpand]
    rfl
  · unfold geoScoreMean
    rw [hpand]
    norm_num

/-- Witness for the amended C1 masking clauses: in the DuckDB path the
absent candidate's 700 and the out-of-range 1200 are both excluded. -/
theorem geo_presence_masking_amended_witness :
    duckdbMaskScore c1Cols c1Row3 "NOTA_MATEMATICA" = none ∧
    duckdbMaskScore c1Cols c1Row2 "NOTA_MATEMATICA" = none ∧
    "TP_PRESENCA_MT" ∉ cleanColumnsCols c1Cols GEO_COLUMNS :=
  ⟨geo_presence_masking_amended.1 c1Cols c1Row3 "NOTA_MATEMATICA"
      "TP_PRESENCA_MT" (by decide) (by decide) (by decide),
   geo_presence_masking_amended.2.1 c1Cols c1Row2 "NOTA_MATEMATICA" 1200
      (by decide) (Or.inr (by norm_num)),
   geo_presence_masking_amended.2.2.2.2.1 c1Cols "TP_PRESENCA_MT"
      (Or.inl (by decide))⟩

section BuilderLemmas

lemma stats_builder_skips_missing (files : ℤ → Option Frame) :
    ∀ years, build_tb_notas_stats_from_cleaned files years =
      .ok ((years.filter (fun y => (files y).isNone)).map warnMissing,
        ((years.filterMap files).map
          (fun f => aggregateStats f.rows)).flatten) := by
  intro years
  induction years with
  | nil => rfl
  | cons y ys ih =>
    cases hf : files y with
    | none =>
      unfold build_tb_notas_stats_from_cleaned
      rw [hf, ih]
      simp [List.filter_cons, List.filterMap_cons, hf, Except.map]
    | some f =>
      unfold build_tb_notas_stats_from_cleaned
      rw [hf, ih]
      simp [List.filter_cons, List.filterMap_cons, hf, Except.map]

lemma geo_builder_skips_missing (files : ℤ → Option Frame) :
    ∀ years, build_tb_notas_geo_from_cleaned files years =
      .ok ((years.filter (fun y => (files y).isNone)).map warnMissing,
        ((years.filterMap files).map
          (fun f => aggregateGeo f.cols f.rows)).flatten) := by
  intro years
  induction years with
  | nil => rfl
  | cons y ys ih =>
    cases hf : files y with
    | none =>
      unfold build_tb_notas_geo_from_cleaned
      rw [hf, ih]
      simp [List.filter_cons, List.filterMap_cons, hf, Except.map]
    | some f =>
      unfold build_tb_notas_geo_from_cleaned
      rw [hf, ih]
      simp [List.filter_cons, List.filterMap_cons, hf, Except.map]

lemma socio_builder_characterization (files : ℤ → Option Frame) :
    ∀ years, build_tb_socio_economico_from_cleaned files years
      = .ok (years.filterMap (fun y => (files y).bind (fun f =>
          if SOCIO_COLUMNS.all (fun c => decide (c ∈ f.cols)) then none
          else some (warnSocioCols y))),
        years.filterMap (fun y => (files y).bind (fun f =>
          if SOCIO_COLUMNS.all (fun c => decide (c ∈ f.cols)) then
            some (y, socioAggregateYear f.rows)
          else none))) := by
  intro years
  induction years with
  | nil => rfl
  | cons y ys ih =>
    cases hf : files y with
    | none =>
      unfold build_tb_socio_economico_from_cleaned
      rw [hf, ih]
      simp [List.filterMap_cons, hf]
    | some f =>
      by_cases hcols : SOCIO_COLUMNS.all (fun c => decide (c ∈ f.cols))
      · unfold build_tb_socio_economico_from_cleaned
        rw [hf, ih]
        simp only [List.filterMap_cons, hf, Option.some_bind, hcols,
          if_true, ite_true, Except.map]
      · unfold build_tb_socio_economico_from_cleaned
        rw [hf, ih]
        simp only [List.filterMap_cons, hf, Option.some_bind, hcols,
          Bool.false_eq_true, if_false, ite_false, Except.map]

lemma socio_builder_silent_skip (files : ℤ → Option Frame) (y : ℤ)
    (ys1 ys2 : List ℤ) (hy : files y = none) :
    build_tb_socio_economico_from_cleaned files (ys1 ++ y :: ys2)
      = build_tb_socio_economico_from_cleaned files (ys1 ++ ys2) := by
  rw [socio_builder_characterization files (ys1 ++ y :: ys2),
    socio_builder_characterization files (ys1 ++ ys2)]
  simp [List.filterMap_append, List.filterMap_cons, hy]

lemma streaming_builder_raises (files : ℤ → Option Frame) :
    ∀ years, ∀ y ∈ years, files y = none →
      ∃ e, build_tb_notas_parquet_streaming files years = .error e := by
  intro years
  induction years with
  | nil => intro y h; cases h
  | cons z zs ih =>
    intro y hy hnone
    rcases List.mem_cons.mp hy with rfl | hmem
    · exact ⟨_, by unfold build_tb_notas_parquet_streaming; rw [hnone]⟩
    · cases hf : files z with
      | none => exact ⟨_, by unfold build_tb_notas_parquet_streaming; rw [hf]⟩
      | some fz =>
        obtain ⟨e, he⟩ := ih y hmem hnone
        refine ⟨e, ?_⟩
        unfold build_tb_notas_parquet_streaming
        rw [hf, he]
        rfl

end BuilderLemmas

/-- C3 counterexample: `build_tb_notas_parquet_streaming` raises
`FileNotFoundError` when the requested year's cleaned file is missing — it
does not skip with a warning like the aggregate builders. -/
theorem tb_notas_streaming_raises_on_missing_year :
    build_tb_notas_parquet_streaming (fun _ => none) [(2020 : ℤ)]
      = .error "FileNotFoundError: cleaned parquet for year 2020" := rfl

/-- C3 amended: the aggregate-table builders never raise on a missing year —
`tb_notas_stats` and `tb_notas_geo` log one warning per missing year and the
year contributes zero rows; `tb_socio_economico` also contributes zero rows
for a missing year but skips it silently (its only warnings are for present
files missing required columns), so dropping a missing year from its input
leaves its output unchanged; the row-level `tb_notas` streaming builder is the
exception and errors whenever some requested year's cleaned file is
missing. -/
theorem builders_skip_missing_years_amended (files : ℤ → Option Frame)
    (years : List ℤ) :
    (build_tb_notas_stats_from_cleaned files years =
      .ok ((years.filter (fun y => (files y).isNone)).map warnMissing,
        ((years.filterMap files).map
          (fun f => aggregateStats f.rows)).flatten)) ∧
    (build_tb_notas_geo_from_cleaned files years =
      .ok ((years.filter (fun y => (files y).isNone)).map warnMissing,
        ((years.filterMap files).map
          (fun f => aggregateGeo f.cols f.rows)).flatten)) ∧
    (build_tb_socio_economico_from_cleaned files years =
      .ok (years.filterMap (fun y => (files y).bind (fun f =>
          if SOCIO_COLUMNS.all (fun c => decide (c ∈ f.cols)) then none
          else some (warnSocioCols y))),
        years.filterMap (fun y => (files y).bind (fun f =>
          if SOCIO_COLUMNS.all (fun c => decide (c ∈ f.cols)) then
            some (y, socioAggregateYear f.rows)
          else none)))) ∧
    (∀ y ys1 ys2, files y = none → years = ys1 ++ y :: ys2 →
      build_tb_socio_economico_from_cleaned files years
        = build_tb_socio_economico_from_cleaned files (ys1 ++ ys2)) ∧
    (∀ y ∈ years, files y = none →
      ∃ e, build_tb_notas_parquet_streaming files years = .error e) :=
  ⟨stats_builder_skips_missing files years,
   geo_builder_skips_missing files years,
   socio_builder_characterization files years,
   fun y ys1 ys2 hy hsplit => hsplit ▸ socio_builder_silent_skip files y ys1 ys2 hy,
   streaming_builder_raises files years⟩

/-- Witness for amended C3: with no files at all, requesting 2021 yields one
warning and zero aggregate rows from the stats builder, no warning and no rows
from the socio-economic builder (silent skip: the run equals the empty run),
and an error from the tb_notas streaming builder. -/
theorem builders_skip_missing_years_witness :
    (build_tb_notas_stats_from_cleaned (fun _ => none) [(2021 : ℤ)]
      = .ok ([warnMissing 2021], [])) ∧
    (build_tb_socio_economico_from_cleaned (fun _ => none) [(2021 : ℤ)]
      = build_tb_socio_economico_from_cleaned (fun _ => none) []) ∧
    (∃ e, build_tb_notas_parquet_streaming (fun _ => none) [(2021 : ℤ)]
      = .error e) :=
  ⟨(builders_skip_missing_years_amended (fun _ => none) [(2021 : ℤ)]).1,
   (builders_skip_missing_years_amended (fun _ => none) [(2021 : ℤ)]).2.2.2.1
     2021 [] [] rfl rfl,
   (builders_skip_missing_years_amended (fun _ => none) [(2021 : ℤ)]).2.2.2.2
     2021 (by simp) rfl⟩

section DedupLemmas

lemma getVal_cons (a : String) (b : Value) (ps : List (String × Value))
    (c : String) :
    getVal ((a, b) :: ps) c = if a = c then b else getVal ps c := by
  unfold getVal
  by_cases h : a = c
  · rw [List.find?_cons_of_pos _ (by simpa using h), if_pos h]
    rfl
  · rw [List.find?_cons_of_neg _ (by simpa using h), if_neg h]

lemma setCell_cons (a : String) (b : Value) (ps : List (String × Value))
    (c : String) (v : Value) :
    setCell ((a, b) :: ps) c v
      = (if a = c then (c, v) else (a, b)) :: setCell ps c v := by
  simp [setCell]

lemma getVal_setCell_ne (r : Row) (c c' : String) (v : Value) (h : c' ≠ c) :
    getVal (setCell r c v) c' = getVal r c' := by
  induction r with
  | nil => rfl
  | cons p ps ih =>
    obtain ⟨a, b⟩ := p
    rw [setCell_cons]
    by_cases ha : a = c
    · rw [if_pos ha, getVal_cons, getVal_cons,
        if_neg (fun hc => h (hc.symm)), if_neg (fun hc => h (ha ▸ hc).symm)]
      exact ih
    · rw [if_neg ha, getVal_cons, getVal_cons]
      by_cases hac : a = c'
      · rw [if_pos hac, if_pos hac]
      · rw [if_neg hac, if_neg hac]
        exact ih

lemma fullKey_domainFixRow (numCols : List String) (col : String)
    (dom : List Value) (r : Row) (h : col ≠ "ID_INSCRICAO") :
    fullKey (domainFixRow numCols col dom r) = fullKey r := by
  unfold domainFixRow fullKey
  by_cases hd : domainInvalid dom col r
  · rw [if_pos hd, getVal_setCell_ne _ _ _ _ (fun hc => h hc.symm)]
  · rw [if_neg hd]

lemma applyDomains_keys (frameCols numCols : List String)
    (meta : List MetaDomain) (rows : List Row)
    (hmeta : ∀ m ∈ meta, m.nome_padrao ≠ "ID_INSCRICAO") :
    ((applyDomains frameCols numCols meta rows).1).map fullKey
      = rows.map fullKey := by
  induction meta generalizing rows with
  | nil => rfl
  | cons m rest ih =>
    have hm := hmeta m (List.mem_cons_self m rest)
    have hrest := fun m' h' => hmeta m' (List.mem_cons_of_mem m h')
    unfold applyDomains
    by_cases hc : m.nome_padrao ∈ frameCols
    · by_cases hcnt :
        rows.countP (domainInvalid m.dominio_valores m.nome_padrao) ≠ 0
      · simp only [if_pos hc, if_pos hcnt]
        rw [ih _ hrest, List.map_map]
        exact List.map_congr_left
          (fun r _ => fullKey_domainFixRow numCols _ _ r hm)
      · simp only [if_pos hc, if_neg hcnt]
        exact ih _ hrest
    · simp only [if_neg hc]
      exact ih _ hrest

lemma dedupStep_kept_keys {α : Type} [DecidableEq α] (key : Row → α)
    (l : List Row) (seen : List α) :
    (dedupStep key l seen).1.map key = firstOccur (l.map key) seen := by
  induction l generalizing seen with
  | nil => rfl
  | cons r rs ih =>
    by_cases h : key r ∈ seen
    · simp [dedupStep, h, firstOccur, ih]
    · simp [dedupStep, h, firstOccur, ih]

lemma firstOccur_mem {α : Type} [DecidableEq α] (l : List α) (seen : List α)
    (x : α) : x ∈ firstOccur l seen ↔ x ∈ l ∧ x ∉ seen := by
  induction l generalizing seen with
  | nil => simp [firstOccur]
  | cons k ks ih =>
    by_cases h : k ∈ seen
    · rw [show firstOccur (k :: ks) seen = firstOccur ks seen by
        simp [firstOccur, h]]
      rw [ih seen]
      constructor
      · rintro ⟨h1, h2⟩
        exact ⟨List.mem_cons_of_mem k h1, h2⟩
      · rintro ⟨h1, h2⟩
        rcases List.mem_cons.mp h1 with rfl | h1
        · exact absurd h h2
        · exact ⟨h1, h2⟩
    · rw [show firstOccur (k :: ks) seen = k :: firstOccur ks (k :: seen) by
        simp [firstOccur, h]]
      constructor
      · intro hx
        rcases List.mem_cons.mp hx with rfl | hx
        · exact ⟨List.mem_cons_self _ _, h⟩
        · obtain ⟨h1, h2⟩ := (ih (k :: seen)).mp hx
          exact ⟨List.mem_cons_of_mem k h1,
            fun hs => h2 (List.mem_cons_of_mem k hs)⟩
      · rintro ⟨h1, h2⟩
        rcases List.mem_cons.mp h1 with rfl | h1
        · exact List.mem_cons_self _ _
        · by_cases hxk : x = k
          · subst hxk
            exact List.mem_cons_self _ _
          · refine List.mem_cons_of_mem k ((ih (k :: seen)).mpr ⟨h1, ?_⟩)
            intro hs
            rcases List.mem_cons.mp hs with h' | h'
            · exact hxk h'
            · exact h2 h'

lemma firstOccur_nodup {α : Type} [DecidableEq α] (l : List α)
    (seen : List α) : (firstOccur l seen).Nodup := by
  induction l generalizing seen with
  | nil => simp [firstOccur]
  | cons k ks ih =>
    by_cases h : k ∈ seen
    · rw [show firstOccur (k :: ks) seen = firstOccur ks seen by
        simp [firstOccur, h]]
      exact ih seen
    · rw [show firstOccur (k :: ks) seen = k :: firstOccur ks (k :: seen) by
        simp [firstOccur, h]]
      rw [List.nodup_cons]
      refine ⟨?_, ih (k :: seen)⟩
      intro hk
      exact ((firstOccur_mem ks (k :: seen) k).mp hk).2
        (List.mem_cons_self _ _)

lemma firstOccur_length_dedup {α : Type} [DecidableEq α] (l : List α) :
    (firstOccur l []).length = l.dedup.length := by
  rw [← List.toFinset_card_of_nodup (firstOccur_nodup l []),
    ← List.toFinset_card_of_nodup l.nodup_dedup]
  congr 1
  ext x
  simp [List.mem_toFinset, firstOccur_mem, List.mem_dedup]

end DedupLemmas

/-- Two rows with the same identifier whose score is out of range: both land
in the invalid-row quarantine, so the duplicates quarantine is empty. -/
def c6Frame : Frame :=
  ⟨["ID_INSCRICAO", "NOTA_MATEMATICA"], ["NOTA_MATEMATICA"],
   [[("ID_INSCRICAO", Value.str "1"), ("NOTA_MATEMATICA", Value.num 2000)],
    [("ID_INSCRICAO", Value.str "1"), ("NOTA_MATEMATICA", Value.num 2000)]]⟩

/-- C6 counterexample: dedup runs only on rows that pass range validation, so
the duplicates quarantine can be smaller than
`total_rows - distinct_identifiers` — here 0 against 2 - 1 = 1. -/
theorem dup_quarantine_size_counterexample :
    (run_cleaning_pipeline c6Frame []).duplicates.length = 0 ∧
    c6Frame.rows.length - ((c6Frame.rows.map fullKey).dedup).length = 1 := by
  decide

/-- A concrete frame with a genuine duplicate among the range-valid rows. -/
def c6wFrame : Frame :=
  ⟨["ID_INSCRICAO", "NOTA_MATEMATICA"], ["NOTA_MATEMATICA"],
   [[("ID_INSCRICAO", Value.str "1"), ("NOTA_MATEMATICA", Value.num 500)],
    [("ID_INSCRICAO", Value.str "1"), ("NOTA_MATEMATICA", Value.num 600)],
    [("ID_INSCRICAO", Value.str "2"), ("NOTA_MATEMATICA", Value.num 700)]]⟩

/-- C6 amended: among the rows that pass numeric-range validation, the
cleaned output keeps exactly the first occurrence of each identifier (its key
sequence is the first-occurrence sequence, hence duplicate-free), and the
duplicates quarantine size is the number of range-valid rows minus the number
of distinct identifiers among them.  (Domain correction must not target the
identifier column, which the reference metadata never does.) -/
theorem cleaning_dedup_amended (frame : Frame) (meta : List MetaDomain)
    (hid : "ID_INSCRICAO" ∈ frame.cols)
    (hmeta : ∀ m ∈ meta, m.nome_padrao ≠ "ID_INSCRICAO") :
    ((run_cleaning_pipeline frame meta).cleaned_df.map fullKey).Nodup ∧
    (run_cleaning_pipeline frame meta).cleaned_df.map fullKey
      = firstOccur ((frame.rows.filter
          (fun r => !invalidRow frame.cols r)).map fullKey) [] ∧
    (run_cleaning_pipeline frame meta).duplicates.length
      = (frame.rows.filter (fun r => !invalidRow frame.cols r)).length
        - ((frame.rows.filter (fun r => !invalidRow frame.cols r)).map
            fullKey).dedup.length := by
  unfold run_cleaning_pipeline cleanCore
  simp only [hid, if_pos]
  set valid := frame.rows.filter (fun r => !invalidRow frame.cols r) with hv
  have hkeys : ((applyDomains frame.cols frame.numCols meta
      (dedupStep fullKey valid []).1).1).map fullKey
      = firstOccur (valid.map fullKey) [] := by
    rw [applyDomains_keys _ _ _ _ hmeta, dedupStep_kept_keys]
  refine ⟨?_, hkeys, ?_⟩
  · rw [hkeys]
    exact firstOccur_nodup _ _
  · have hpart := dedupStep_partition fullKey valid []
    have hkept : (dedupStep fullKey valid []).1.length
        = ((valid.map fullKey).dedup).length := by
      rw [← firstOccur_length_dedup, ← dedupStep_kept_keys, List.length_map]
    omega

/-- Witness for amended C6 on a frame with one cross-row duplicate: the
cleaned keys are `["1", "2"]` (first occurrences, no duplicates) and the
duplicates quarantine holds `3 - 2 = 1` row. -/
theorem cleaning_dedup_amended_witness :
    ((run_cleaning_pipeline c6wFrame []).cleaned_df.map fullKey).Nodup ∧
    (run_cleaning_pipeline c6wFrame []).cleaned_df.map fullKey
      = firstOccur ((c6wFrame.rows.filter
          (fun r => !invalidRow c6wFrame.cols r)).map fullKey) [] ∧
    (run_cleaning_pipeline c6wFrame []).duplicates.length
      = (c6wFrame.rows.filter (fun r => !invalidRow c6wFrame.cols r)).length
        - ((c6wFrame.rows.filter (fun r => !invalidRow c6wFrame.cols r)).map
            fullKey).dedup.length :=
  cleaning_dedup_amended c6wFrame [] (by decide) (by simp)

section ReportLemmas

lemma reportTotal_nil (rule : String) : reportTotal [] rule = 0 := rfl

lemma reportTotal_cons (k : String) (n : ℕ) (rest : List (String × ℕ))
    (rule : String) :
    reportTotal ((k, n) :: rest) rule
      = (if k = rule then n else 0) + reportTotal rest rule := by
  unfold reportTotal
  rw [List.filter_cons]
  by_cases h : k = rule
  · simp [h]
  · simp [h]

lemma reportTotal_append (a b : List (String × ℕ)) (rule : String) :
    reportTotal (a ++ b) rule = reportTotal a rule + reportTotal b rule := by
  unfold reportTotal
  rw [List.filter_append, List.map_append, List.sum_append]

lemma reportTotal_eq_zero (rep : List (String × ℕ)) (rule : String)
    (h : ∀ p ∈ rep, p.1 ≠ rule) : reportTotal rep rule = 0 := by
  induction rep with
  | nil => rfl
  | cons p ps ih =>
    obtain ⟨k, n⟩ := p
    rw [reportTotal_cons,
      if_neg (h (k, n) (List.mem_cons_self _ _)),
      ih (fun q hq => h q (List.mem_cons_of_mem _ hq))]

lemma reportTotal_perm (a b : List (String × ℕ)) (rule : String)
    (h : a.Perm b) : reportTotal a rule = reportTotal b rule := by
  unfold reportTotal
  exact ((h.filter _).map _).sum_eq

lemma reportTotal_addCount (c : List (String × ℕ)) (k : String) (n : ℕ)
    (rule : String) :
    reportTotal (addCount c k n) rule
      = reportTotal c rule + (if k = rule then n else 0) := by
  induction c with
  | nil =>
    rw [show addCount [] k n = [(k, n)] from rfl, reportTotal_cons]
    omega
  | cons p ps ih =>
    obtain ⟨r, m⟩ := p
    by_cases hr : r = k
    · rw [show addCount ((r, m) :: ps) k n
          = (r, m + n) :: ps from by simp [addCount, hr]]
      rw [reportTotal_cons, reportTotal_cons]
      by_cases hrr : r = rule
      · rw [if_pos hrr, if_pos hrr, if_pos (hr ▸ hrr)]
        omega
      · rw [if_neg hrr, if_neg hrr, if_neg (hr ▸ hrr)]
        omega
    · rw [show addCount ((r, m) :: ps) k n
          = (r, m) :: addCount ps k n from by simp [addCount, hr]]
      rw [reportTotal_cons, reportTotal_cons, ih]
      omega

lemma reportTotal_bumpCounters (c : List (String × ℕ))
    (entries : List (String × ℕ)) (rule : String) :
    reportTotal (bumpCounters c entries) rule
      = reportTotal c rule + reportTotal entries rule := by
  induction entries generalizing c with
  | nil => rw [reportTotal_nil]; rfl
  | cons e es ih =>
    obtain ⟨k, n⟩ := e
    rw [show bumpCounters c ((k, n) :: es) = bumpCounters (addCount c k n) es
        from rfl, ih, reportTotal_addCount, reportTotal_cons]
    omega

lemma addCount_keys (c : List (String × ℕ)) (k : String) (n : ℕ) :
    (addCount c k n).map Prod.fst
      = if k ∈ c.map Prod.fst then c.map Prod.fst
        else c.map Prod.fst ++ [k] := by
  induction c with
  | nil => simp [addCount]
  | cons p ps ih =>
    obtain ⟨r, m⟩ := p
    by_cases hr : r = k
    · simp [addCount, hr]
    · rw [show addCount ((r, m) :: ps) k n
          = (r, m) :: addCount ps k n from by simp [addCount, hr]]
      simp only [List.map_cons, ih, List.mem_cons]
      by_cases hk : k ∈ ps.map Prod.fst
      · simp [hk, hr]
      · rw [if_neg hk, if_neg (by
          rintro (h | h)
          · exact hr h.symm
          · exact hk h)]
        simp

lemma addCount_nodup (c : List (String × ℕ)) (k : String) (n : ℕ)
    (h : (c.map Prod.fst).Nodup) : ((addCount c k n).map Prod.fst).Nodup := by
  rw [addCount_keys]
  by_cases hk : k ∈ c.map Prod.fst
  · rwa [if_pos hk]
  · rw [if_neg hk]
    rw [List.nodup_append]
    exact ⟨h, List.nodup_singleton k, by simpa using hk⟩

lemma bumpCounters_nodup (c : List (String × ℕ))
    (entries : List (String × ℕ)) (h : (c.map Prod.fst).Nodup) :
    ((bumpCounters c entries).map Prod.fst).Nodup := by
  induction entries generalizing c with
  | nil => exact h
  | cons e es ih => exact ih _ (addCount_nodup c e.1 e.2 h)

lemma counterGet_eq_reportTotal (c : List (String × ℕ)) (rule : String)
    (h : (c.map Prod.fst).Nodup) : counterGet c rule = reportTotal c rule := by
  induction c with
  | nil => rfl
  | cons p ps ih =>
    obtain ⟨r, m⟩ := p
    rw [List.map_cons, List.nodup_cons] at h
    rw [reportTotal_cons]
    by_cases hr : r = rule
    · rw [if_pos hr,
        show counterGet ((r, m) :: ps) rule = m from by
          simp [counterGet, List.find?_cons_of_pos, hr]]
      have hzero : reportTotal ps rule = 0 := by
        refine reportTotal_eq_zero ps rule ?_
        intro q hq hq2
        refine h.1 ?_
        rw [hr, ← hq2]
        show Prod.fst q ∈ List.map Prod.fst ps
        exact List.mem_map_of_mem Prod.fst hq
      rw [hzero]
      omega
    · rw [if_neg hr,
        show counterGet ((r, m) :: ps) rule = counterGet ps rule from by
          simp [counterGet, List.find?_cons_of_neg, hr],
        ih h.2]
      omega

end ReportLemmas

section StreamEquivLemmas

lemma filter_other_total (c : List (String × ℕ)) (rule : String)
    (h1 : rule ≠ "invalid_rows") (h2 : rule ≠ "duplicates") :
    reportTotal (c.filter (fun p =>
      decide (p.1 ≠ "invalid_rows") && decide (p.1 ≠ "duplicates"))) rule
      = reportTotal c rule := by
  induction c with
  | nil => rfl
  | cons p ps ih =>
    obtain ⟨k, n⟩ := p
    rw [List.filter_cons]
    by_cases hk : k = rule
    · have hcond : (decide (k ≠ "invalid_rows")
          && decide (k ≠ "duplicates")) = true := by
        simp only [hk, Bool.and_eq_true, decide_eq_true_eq]
        exact ⟨h1, h2⟩
      rw [if_pos hcond, reportTotal_cons, reportTotal_cons, ih]
    · by_cases hkeep : (decide (k ≠ "invalid_rows")
          && decide (k ≠ "duplicates")) = true
      · rw [if_pos hkeep, reportTotal_cons, reportTotal_cons, ih]
      · rw [if_neg (by simpa using hkeep), reportTotal_cons,
          if_neg hk, ih]
        omega

lemma streamReport_total (counter : List (String × ℕ))
    (h : (counter.map Prod.fst).Nodup) (rule : String) :
    reportTotal (streamReport counter) rule = reportTotal counter rule := by
  unfold streamReport
  rw [reportTotal_append, reportTotal_append]
  have hsorted : reportTotal ((counter.filter (fun p =>
      decide (p.1 ≠ "invalid_rows") && decide (p.1 ≠ "duplicates"))).mergeSort
        (fun a b => decide (a.1 ≤ b.1))) rule
      = reportTotal (counter.filter (fun p =>
        decide (p.1 ≠ "invalid_rows") && decide (p.1 ≠ "duplicates"))) rule :=
    reportTotal_perm _ _ rule (List.mergeSort_perm _ _)
  by_cases h1 : rule = "invalid_rows"
  · subst h1
    have hdup : reportTotal (if counterGet counter "duplicates" ≠ 0 then
        [("duplicates", counterGet counter "duplicates")] else [])
        "invalid_rows" = 0 := by
      split
      · rw [reportTotal_cons]
        simp [reportTotal_nil]
      · rfl
    have hflt : reportTotal (counter.filter (fun p =>
        decide (p.1 ≠ "invalid_rows") && decide (p.1 ≠ "duplicates")))
        "invalid_rows" = 0 := by
      refine reportTotal_eq_zero _ _ ?_
      intro p hp
      have := (List.mem_filter.mp hp).2
      simp only [Bool.and_eq_true, decide_eq_true_eq] at this
      exact this.1
    rw [hsorted, hdup, hflt]
    split
    · rw [reportTotal_cons, if_pos rfl, reportTotal_nil,
        counterGet_eq_reportTotal _ _ h]
      omega
    · rename_i hz
      rw [reportTotal_nil]
      rw [counterGet_eq_reportTotal _ _ h] at hz
      omega
  · by_cases h2 : rule = "duplicates"
    · subst h2
      have hinv : reportTotal (if counterGet counter "invalid_rows" ≠ 0 then
          [("invalid_rows", counterGet counter "invalid_rows")] else [])
          "duplicates" = 0 := by
        split
        · rw [reportTotal_cons]
          simp [reportTotal_nil]
        · rfl
      have hflt : reportTotal (counter.filter (fun p =>
          decide (p.1 ≠ "invalid_rows") && decide (p.1 ≠ "duplicates")))
          "duplicates" = 0 := by
        refine reportTotal_eq_zero _ _ ?_
        intro p hp
        have := (List.mem_filter.mp hp).2
        simp only [Bool.and_eq_true, decide_eq_true_eq] at this
        exact this.2
      rw [hsorted, hinv, hflt]
      split
      · rw [reportTotal_cons, if_pos rfl, reportTotal_nil,
          counterGet_eq_reportTotal _ _ h]
        omega
      · rename_i hz
        rw [reportTotal_nil]
        rw [counterGet_eq_reportTotal _ _ h] at hz
        omega
    · have hinv : reportTotal (if counterGet counter "invalid_rows" ≠ 0 then
          [("invalid_rows", counterGet counter "invalid_rows")] else [])
          rule = 0 := by
        split
        · rw [reportTotal_cons, if_neg (fun hc => h1 hc.symm),
            reportTotal_nil]
        · rfl
      have hdup : reportTotal (if counterGet counter "duplicates" ≠ 0 then
          [("duplicates", counterGet counter "duplicates")] else [])
          rule = 0 := by
        split
        · rw [reportTotal_cons, if_neg (fun hc => h2 hc.symm),
            reportTotal_nil]
        · rfl
      have hflt := filter_other_total counter rule h1 h2
      rw [hsorted, hinv, hdup, hflt]
      omega

lemma chunkList_flatten {α : Type} (n : ℕ) : ∀ (l : List α),
    (chunkList n l).flatten = l
  | [] => by rw [chunkList]; rfl
  | x :: xs => by
    rw [chunkList, List.flatten_cons, List.cons_append,
      chunkList_flatten n (xs.drop (n - 1)), List.take_append_drop]
termination_by l => l.length
decreasing_by
  simp only [List.length_cons, List.length_drop]
  omega

lemma entry_total (name : String) (i : ℕ) (rule : String) :
    reportTotal (if i ≠ 0 then [(name, i)] else []) rule
      = if rule = name then i else 0 := by
  split
  · rw [reportTotal_cons, reportTotal_nil]
    by_cases hr : rule = name
    · rw [if_pos hr.symm, if_pos hr]
      omega
    · rw [if_neg (fun hc => hr hc.symm), if_neg hr]
  · rename_i hz
    push_neg at hz
    subst hz
    rw [reportTotal_nil]
    by_cases hr : rule = name <;> simp [hr]

lemma assembleReport_total (i d : ℕ) (rep : List (String × ℕ))
    (rule : String) :
    reportTotal (assembleReport i d rep) rule
      = (if rule = "invalid_rows" then i else 0)
        + (if rule = "duplicates" then d else 0)
        + reportTotal (rep.map (fun p => ("domain:" ++ p.1, p.2))) rule := by
  unfold assembleReport
  rw [reportTotal_append, reportTotal_append,
    entry_total "invalid_rows" i rule, entry_total "duplicates" d rule]

end StreamEquivLemmas

section CoreAppendLemmas

lemma dedupStep_append {α : Type} [DecidableEq α] (key : Row → α)
    (l1 l2 : List Row) (seen : List α) :
    dedupStep key (l1 ++ l2) seen
      = ((dedupStep key l1 seen).1
          ++ (dedupStep key l2 (dedupStep key l1 seen).2.2).1,
         (dedupStep key l1 seen).2.1
          ++ (dedupStep key l2 (dedupStep key l1 seen).2.2).2.1,
         (dedupStep key l2 (dedupStep key l1 seen).2.2).2.2) := by
  induction l1 generalizing seen with
  | nil => simp [dedupStep]
  | cons r rs ih =>
    by_cases h : key r ∈ seen
    · simp [dedupStep, h, ih]
    · simp [dedupStep, h, ih]

lemma dedupStep_transport {α β : Type} [DecidableEq α] [DecidableEq β]
    (key : Row → α) (key2 : Row → β) (g : α → β)
    (hg : Function.Injective g) (l : List Row) (seen : List α)
    (hk : ∀ r ∈ l, key2 r = g (key r)) :
    dedupStep key2 l (seen.map g)
      = ((dedupStep key l seen).1, (dedupStep key l seen).2.1,
         (dedupStep key l seen).2.2.map g) := by
  induction l generalizing seen with
  | nil => simp [dedupStep]
  | cons r rs ih =>
    have hr := hk r (List.mem_cons_self r rs)
    have hrs := fun r' h' => hk r' (List.mem_cons_of_mem r h')
    have hmem : key2 r ∈ seen.map g ↔ key r ∈ seen := by
      rw [hr]
      constructor
      · intro hm
        obtain ⟨x, hx, hgx⟩ := List.mem_map.mp hm
        exact (hg hgx) ▸ hx
      · exact fun hm => List.mem_map_of_mem g hm
    by_cases h : key r ∈ seen
    · simp only [dedupStep, if_pos h, if_pos (hmem.mpr h), ih seen hrs]
    · have h2 : key2 r ∉ seen.map g := fun hc => h (hmem.mp hc)
      simp only [dedupStep, if_neg h, if_neg h2]
      have : (key2 r :: seen.map g) = (key r :: seen).map g := by
        rw [List.map_cons, hr]
      rw [this, ih (key r :: seen) hrs]

lemma map_domainFixRow_eq_self (numCols : List String) (col : String)
    (dom : List Value) (l : List Row)
    (h : l.countP (domainInvalid dom col) = 0) :
    l.map (domainFixRow numCols col dom) = l := by
  have hz := List.countP_eq_zero.mp h
  induction l with
  | nil => rfl
  | cons r rs ih =>
    rw [List.map_cons]
    rw [show domainFixRow numCols col dom r = r from by
      unfold domainFixRow
      rw [if_neg (by simpa using hz r (List.mem_cons_self r rs))]]
    rw [ih (by
      rw [List.countP_cons] at h
      omega) (fun r' h' => hz r' (List.mem_cons_of_mem r h'))]

lemma applyDomains_cons_norm (frameCols numCols : List String)
    (m : MetaDomain) (rest : List MetaDomain) (rows : List Row)
    (hc : m.nome_padrao ∈ frameCols) :
    applyDomains frameCols numCols (m :: rest) rows
      = ((applyDomains frameCols numCols rest
            (rows.map (domainFixRow numCols m.nome_padrao
              m.dominio_valores))).1,
         (if rows.countP (domainInvalid m.dominio_valores m.nome_padrao) ≠ 0
          then [(m.nome_padrao, rows.countP
            (domainInvalid m.dominio_valores m.nome_padrao))] else [])
          ++ (applyDomains frameCols numCols rest
            (rows.map (domainFixRow numCols m.nome_padrao
              m.dominio_valores))).2) := by
  conv_lhs => rw [applyDomains]
  rw [if_pos hc]
  dsimp only
  by_cases hcnt :
      rows.countP (domainInvalid m.dominio_valores m.nome_padrao) ≠ 0
  · rw [if_pos hcnt]
  · rw [if_neg hcnt]
    push_neg at hcnt
    rw [map_domainFixRow_eq_self _ _ _ _ hcnt]

lemma applyDomains_cons_skip (frameCols numCols : List String)
    (m : MetaDomain) (rest : List MetaDomain) (rows : List Row)
    (hc : m.nome_padrao ∉ frameCols) :
    applyDomains frameCols numCols (m :: rest) rows
      = applyDomains frameCols numCols rest rows := by
  conv_lhs => rw [applyDomains]
  rw [if_neg hc]

lemma map_entry_total (name : String) (i : ℕ) (rule : String) :
    reportTotal ((if i ≠ 0 then [(name, i)] else []).map
      (fun p => ("domain:" ++ p.1, p.2))) rule
      = if rule = "domain:" ++ name then i else 0 := by
  split
  · rw [List.map_cons, List.map_nil, reportTotal_cons, reportTotal_nil]
    by_cases hr : rule = "domain:" ++ name
    · rw [if_pos hr.symm, if_pos hr]
      omega
    · rw [if_neg (fun hc => hr hc.symm), if_neg hr]
  · rename_i hz
    push_neg at hz
    subst hz
    rw [List.map_nil, reportTotal_nil]
    by_cases hr : rule = "domain:" ++ name <;> simp [hr]

lemma applyDomains_append (frameCols numCols : List String)
    (meta : List MetaDomain) (l1 l2 : List Row) :
    (applyDomains frameCols numCols meta (l1 ++ l2)).1
      = (applyDomains frameCols numCols meta l1).1
        ++ (applyDomains frameCols numCols meta l2).1 ∧
    ∀ rule, reportTotal ((applyDomains frameCols numCols meta
        (l1 ++ l2)).2.map (fun p => ("domain:" ++ p.1, p.2))) rule
      = reportTotal ((applyDomains frameCols numCols meta l1).2.map
          (fun p => ("domain:" ++ p.1, p.2))) rule
        + reportTotal ((applyDomains frameCols numCols meta l2).2.map
          (fun p => ("domain:" ++ p.1, p.2))) rule := by
  induction meta generalizing l1 l2 with
  | nil => exact ⟨rfl, fun rule => rfl⟩
  | cons m rest ih =>
    by_cases hc : m.nome_padrao ∈ frameCols
    · rw [applyDomains_cons_norm _ _ _ _ _ hc,
        applyDomains_cons_norm _ _ _ _ _ hc,
        applyDomains_cons_norm _ _ _ _ _ hc]
      rw [List.map_append
        (domainFixRow numCols m.nome_padrao m.dominio_valores) l1 l2]
      obtain ⟨ihrows, ihtot⟩ := ih
        (l1.map (domainFixRow numCols m.nome_padrao m.dominio_valores))
        (l2.map (domainFixRow numCols m.nome_padrao m.dominio_valores))
      refine ⟨ihrows, fun rule => ?_⟩
      rw [List.map_append, reportTotal_append, List.map_append,
        reportTotal_append, List.map_append, reportTotal_append]
      rw [map_entry_total, map_entry_total, map_entry_total,
        List.countP_append, ihtot]
      by_cases hr : rule = "domain:" ++ m.nome_padrao
      · rw [if_pos hr, if_pos hr, if_pos hr]
        omega
      · rw [if_neg hr, if_neg hr, if_neg hr]
        omega
    · rw [applyDomains_cons_skip _ _ _ _ _ hc,
        applyDomains_cons_skip _ _ _ _ _ hc,
        applyDomains_cons_skip _ _ _ _ _ hc]
      exact ih l1 l2

end CoreAppendLemmas

section CleanCoreLemmas

lemma cleanCore_append {α : Type} [DecidableEq α] (key : Row → α)
    (cols numCols : List String) (meta : List MetaDomain)
    (l1 l2 : List Row) (seen : List α) :
    (cleanCore key cols numCols meta (l1 ++ l2) seen).corrected
      = (cleanCore key cols numCols meta l1 seen).corrected
        ++ (cleanCore key cols numCols meta l2
            (cleanCore key cols numCols meta l1 seen).seen).corrected ∧
    (cleanCore key cols numCols meta (l1 ++ l2) seen).invalid
      = (cleanCore key cols numCols meta l1 seen).invalid
        ++ (cleanCore key cols numCols meta l2
            (cleanCore key cols numCols meta l1 seen).seen).invalid ∧
    (cleanCore key cols numCols meta (l1 ++ l2) seen).dups
      = (cleanCore key cols numCols meta l1 seen).dups
        ++ (cleanCore key cols numCols meta l2
            (cleanCore key cols numCols meta l1 seen).seen).dups ∧
    (cleanCore key cols numCols meta (l1 ++ l2) seen).seen
      = (cleanCore key cols numCols meta l2
          (cleanCore key cols numCols meta l1 seen).seen).seen ∧
    ∀ rule, reportTotal ((cleanCore key cols numCols meta (l1 ++ l2)
        seen).domainReport.map (fun p => ("domain:" ++ p.1, p.2))) rule
      = reportTotal ((cleanCore key cols numCols meta l1
          seen).domainReport.map (fun p => ("domain:" ++ p.1, p.2))) rule
        + reportTotal ((cleanCore key cols numCols meta l2
            (cleanCore key cols numCols meta l1 seen).seen).domainReport.map
          (fun p => ("domain:" ++ p.1, p.2))) rule := by
  simp only [cleanCore]
  rw [List.filter_append, List.filter_append]
  by_cases hid : "ID_INSCRICAO" ∈ cols
  · simp only [hid, if_pos]
    rw [dedupStep_append key
      (l1.filter (fun r => !invalidRow cols r))
      (l2.filter (fun r => !invalidRow cols r)) seen]
    obtain ⟨hrows, htot⟩ := applyDomains_append cols numCols meta
      (dedupStep key (l1.filter (fun r => !invalidRow cols r)) seen).1
      ((dedupStep key (l2.filter (fun r => !invalidRow cols r))
        (dedupStep key (l1.filter (fun r => !invalidRow cols r))
          seen).2.2)).1
    refine ⟨hrows, ?_, ?_, ?_, htot⟩ <;> trivial
  · simp only [hid, if_neg, if_false, not_false_iff]
    obtain ⟨hrows, htot⟩ := applyDomains_append cols numCols meta
      (l1.filter (fun r => !invalidRow cols r))
      (l2.filter (fun r => !invalidRow cols r))
    refine ⟨hrows, ?_, ?_, ?_, htot⟩ <;> trivial

lemma value_str_injective : Function.Injective Value.str := by
  intro a b h
  injection h

lemma cleanCore_transport (cols numCols : List String)
    (meta : List MetaDomain) (rows : List Row)
    (hid : "ID_INSCRICAO" ∈ cols → ∀ r ∈ rows, ∃ s, fullKey r = Value.str s) :
    (cleanCore fullKey cols numCols meta rows ([] : List Value)).corrected
      = (cleanCore streamKey cols numCols meta rows
          ([] : List String)).corrected ∧
    (cleanCore fullKey cols numCols meta rows ([] : List Value)).invalid
      = (cleanCore streamKey cols numCols meta rows
          ([] : List String)).invalid ∧
    (cleanCore fullKey cols numCols meta rows ([] : List Value)).dups
      = (cleanCore streamKey cols numCols meta rows ([] : List String)).dups ∧
    (cleanCore fullKey cols numCols meta rows ([] : List Value)).domainReport
      = (cleanCore streamKey cols numCols meta rows
          ([] : List String)).domainReport := by
  simp only [cleanCore]
  by_cases hc : "ID_INSCRICAO" ∈ cols
  · simp only [hc, if_pos]
    have hk : ∀ r ∈ rows.filter (fun r => !invalidRow cols r),
        fullKey r = Value.str (streamKey r) := by
      intro r hr
      obtain ⟨s, hs⟩ := hid hc r (List.mem_of_mem_filter hr)
      rw [hs]
      unfold streamKey
      rw [hs]
      rfl
    have htr := dedupStep_transport streamKey fullKey Value.str
      value_str_injective (rows.filter (fun r => !invalidRow cols r))
      [] hk
    rw [show (([] : List String).map Value.str) = ([] : List Value)
      from rfl] at htr
    rw [htr]
    refine ⟨?_, ?_, ?_, ?_⟩ <;> trivial
  · simp only [hc, if_neg, if_false, not_false_iff]
    refine ⟨?_, ?_, ?_, ?_⟩ <;> trivial

end CleanCoreLemmas

section StreamFoldLemmas

lemma applyDomains_nil_rows (frameCols numCols : List String)
    (meta : List MetaDomain) :
    applyDomains frameCols numCols meta [] = ([], []) := by
  induction meta with
  | nil => rfl
  | cons m rest ih =>
    by_cases hc : m.nome_padrao ∈ frameCols
    · rw [applyDomains_cons_norm _ _ _ _ _ hc]
      simp [ih]
    · rw [applyDomains_cons_skip _ _ _ _ _ hc, ih]

lemma cleanCore_nil {α : Type} [DecidableEq α] (key : Row → α)
    (cols numCols : List String) (meta : List MetaDomain) (seen : List α) :
    cleanCore key cols numCols meta [] seen = ⟨[], [], [], [], seen⟩ := by
  simp only [cleanCore, List.filter_nil]
  by_cases hid : "ID_INSCRICAO" ∈ cols
  · simp only [hid, if_pos]
    rw [show dedupStep key [] seen = ([], [], seen) from rfl,
      applyDomains_nil_rows]
  · simp only [hid, if_neg, if_false, not_false_iff]
    rw [applyDomains_nil_rows]

lemma processChunk_counter (frameCols numCols : List String)
    (meta : List MetaDomain) (acc : StreamAcc) (chunk : List Row)
    (rule : String) :
    reportTotal (processChunk frameCols numCols meta acc chunk).counter rule
      = reportTotal acc.counter rule
        + reportTotal (assembleReport
            (cleanCore streamKey frameCols numCols meta chunk
              acc.seen).invalid.length
            (cleanCore streamKey frameCols numCols meta chunk
              acc.seen).dups.length
            (cleanCore streamKey frameCols numCols meta chunk
              acc.seen).domainReport) rule := by
  unfold processChunk
  dsimp only
  rw [reportTotal_bumpCounters, assembleReport_total]
  rw [show ∀ c : List (String × ℕ), ∀ i : ℕ,
      reportTotal (if i ≠ 0 then addCount c "duplicates" i else c) rule
        = reportTotal c rule + (if rule = "duplicates" then i else 0)
      from ?_, show ∀ c : List (String × ℕ), ∀ i : ℕ,
      reportTotal (if i ≠ 0 then addCount c "invalid_rows" i else c) rule
        = reportTotal c rule + (if rule = "invalid_rows" then i else 0)
      from ?_]
  · omega
  · intro c i
    split
    · rw [reportTotal_addCount]
      by_cases hr : rule = "invalid_rows"
      · rw [if_pos hr, if_pos hr.symm]
      · rw [if_neg hr, if_neg (fun hc => hr hc.symm)]
    · rename_i hz
      push_neg at hz
      subst hz
      by_cases hr : rule = "invalid_rows" <;> simp [hr]
  · intro c i
    split
    · rw [reportTotal_addCount]
      by_cases hr : rule = "duplicates"
      · rw [if_pos hr, if_pos hr.symm]
      · rw [if_neg hr, if_neg (fun hc => hr hc.symm)]
    · rename_i hz
      push_neg at hz
      subst hz
      by_cases hr : rule = "duplicates" <;> simp [hr]

lemma processChunk_nodup (frameCols numCols : List String)
    (meta : List MetaDomain) (acc : StreamAcc) (chunk : List Row)
    (h : (acc.counter.map Prod.fst).Nodup) :
    ((processChunk frameCols numCols meta acc chunk).counter.map
      Prod.fst).Nodup := by
  unfold processChunk
  dsimp only
  refine bumpCounters_nodup _ _ ?_
  split
  · refine addCount_nodup _ _ _ ?_
    split
    · exact addCount_nodup _ _ _ h
    · exact h
  · split
    · exact addCount_nodup _ _ _ h
    · exact h

end StreamFoldLemmas

lemma streamFold_spec (frameCols numCols : List String)
    (meta : List MetaDomain) :
    ∀ (cs : List (List Row)) (acc : StreamAcc),
    (cs.foldl (processChunk frameCols numCols meta) acc).seen
      = (cleanCore streamKey frameCols numCols meta cs.flatten
          acc.seen).seen ∧
    (cs.foldl (processChunk frameCols numCols meta) acc).cleaned
      = acc.cleaned ++ (cleanCore streamKey frameCols numCols meta cs.flatten
          acc.seen).corrected ∧
    (cs.foldl (processChunk frameCols numCols meta) acc).invalid
      = acc.invalid ++ (cleanCore streamKey frameCols numCols meta cs.flatten
          acc.seen).invalid ∧
    (cs.foldl (processChunk frameCols numCols meta) acc).dups
      = acc.dups ++ (cleanCore streamKey frameCols numCols meta cs.flatten
          acc.seen).dups ∧
    (∀ rule, reportTotal
        ((cs.foldl (processChunk frameCols numCols meta) acc).counter) rule
      = reportTotal acc.counter rule
        + reportTotal (assembleReport
            (cleanCore streamKey frameCols numCols meta cs.flatten
              acc.seen).invalid.length
            (cleanCore streamKey frameCols numCols meta cs.flatten
              acc.seen).dups.length
            (cleanCore streamKey frameCols numCols meta cs.flatten
              acc.seen).domainReport) rule) ∧
    ((acc.counter.map Prod.fst).Nodup →
      (((cs.foldl (processChunk frameCols numCols meta) acc).counter.map
        Prod.fst).Nodup)) := by
  intro cs
  induction cs with
  | nil =>
    intro acc
    simp only [List.foldl_nil, List.flatten_nil]
    rw [cleanCore_nil]
    refine ⟨rfl, by simp, by simp, by simp, fun rule => ?_, fun h => h⟩
    rw [show assembleReport (List.length []) (List.length [])
        ([] : List (String × ℕ)) = [] from rfl, reportTotal_nil]
    omega
  | cons c cs ih =>
    intro acc
    simp only [List.foldl_cons, List.flatten_cons]
    obtain ⟨ih1, ih2, ih3, ih4, ih5, ih6⟩ :=
      ih (processChunk frameCols numCols meta acc c)
    obtain ⟨ca1, ca2, ca3, ca4, ca5⟩ := cleanCore_append streamKey
      frameCols numCols meta c cs.flatten acc.seen
    have hseen' : (processChunk frameCols numCols meta acc c).seen
        = (cleanCore streamKey frameCols numCols meta c acc.seen).seen := rfl
    have hcleaned' : (processChunk frameCols numCols meta acc c).cleaned
        = acc.cleaned ++ (cleanCore streamKey frameCols numCols meta c
            acc.seen).corrected := rfl
    have hinvalid' : (processChunk frameCols numCols meta acc c).invalid
        = acc.invalid ++ (cleanCore streamKey frameCols numCols meta c
            acc.seen).invalid := rfl
    have hdups' : (processChunk frameCols numCols meta acc c).dups
        = acc.dups ++ (cleanCore streamKey frameCols numCols meta c
            acc.seen).dups := rfl
    refine ⟨?_, ?_, ?_, ?_, fun rule => ?_, fun h => ih6
      (processChunk_nodup frameCols numCols meta acc c h)⟩
    · rw [ih1, hseen', ca4]
    · rw [ih2, hcleaned', hseen', ca1, List.append_assoc]
    · rw [ih3, hinvalid', hseen', ca2, List.append_assoc]
    · rw [ih4, hdups', hseen', ca3, List.append_assoc]
    · rw [ih5 rule, processChunk_counter, hseen']
      rw [assembleReport_total, assembleReport_total, assembleReport_total]
      rw [ca2, ca3, ca5 rule, List.length_append, List.length_append]
      have hne : ¬ (("duplicates" : String) = "invalid_rows") := by decide
      have hne2 : ¬ (("invalid_rows" : String) = "duplicates") := by decide
      by_cases hr1 : rule = "invalid_rows"
      · subst hr1
        simp only [if_pos (show ("invalid_rows" : String) = "invalid_rows"
          from rfl), if_neg hne2, if_true]
        omega
      · by_cases hr2 : rule = "duplicates"
        · subst hr2
          simp only [if_pos (show ("duplicates" : String) = "duplicates"
            from rfl), if_neg hne, if_true]
          omega
        · simp only [if_neg hr1, if_neg hr2]
          omega

/-- C2: streaming the cleaning stage in `n`-row batches is row-equivalent to
one full-dataset run — same cleaned rows (and row count), same quarantined
invalid rows, same duplicates, and the same report totals per rule.  The
cross-batch `seen_ids` set makes batch-local dedup globally correct; the
hypothesis that `ID_INSCRICAO` cells are strings reflects the silver schema
(the normalizer types the identifier column as string), under which the
streaming `astype(str)` key agrees with the full run's raw-value key. -/
theorem stream_cleaning_row_equivalent (frame : Frame)
    (meta : List MetaDomain) (n : ℕ) (hn : 1 ≤ n)
    (hids : "ID_INSCRICAO" ∈ frame.cols →
      ∀ r ∈ frame.rows, ∃ s, fullKey r = Value.str s) :
    (stream_clean_to_parquet frame meta n).cleaned
      = (run_cleaning_pipeline frame meta).cleaned_df ∧
    (stream_clean_to_parquet frame meta n).invalid_rows
      = (run_cleaning_pipeline frame meta).invalid_rows ∧
    (stream_clean_to_parquet frame meta n).duplicates
      = (run_cleaning_pipeline frame meta).duplicates ∧
    (stream_clean_to_parquet frame meta n).row_count
      = (run_cleaning_pipeline frame meta).cleaned_df.length ∧
    (∀ rule, reportTotal
        (stream_clean_to_parquet frame meta n).cleaning_report rule
      = reportTotal (run_cleaning_pipeline frame meta).cleaning_report
          rule) := by
  obtain ⟨f1, f2, f3, f4, f5, f6⟩ := streamFold_spec frame.cols frame.numCols
    meta (chunkList (max 1 n) frame.rows) ⟨[], [], [], [], []⟩
  rw [chunkList_flatten] at f2 f3 f4 f5
  obtain ⟨t1, t2, t3, t4⟩ := cleanCore_transport frame.cols frame.numCols
    meta frame.rows hids
  have hsc : (stream_clean_to_parquet frame meta n).cleaned
      = ((chunkList (max 1 n) frame.rows).foldl
        (processChunk frame.cols frame.numCols meta)
        ⟨[], [], [], [], []⟩).cleaned := rfl
  have hsi : (stream_clean_to_parquet frame meta n).invalid_rows
      = ((chunkList (max 1 n) frame.rows).foldl
        (processChunk frame.cols frame.numCols meta)
        ⟨[], [], [], [], []⟩).invalid := rfl
  have hsd : (stream_clean_to_parquet frame meta n).duplicates
      = ((chunkList (max 1 n) frame.rows).foldl
        (processChunk frame.cols frame.numCols meta)
        ⟨[], [], [], [], []⟩).dups := rfl
  have hsr : (stream_clean_to_parquet frame meta n).row_count
      = ((chunkList (max 1 n) frame.rows).foldl
        (processChunk frame.cols frame.numCols meta)
        ⟨[], [], [], [], []⟩).cleaned.length := rfl
  have hsrep : (stream_clean_to_parquet frame meta n).cleaning_report
      = streamReport ((chunkList (max 1 n) frame.rows).foldl
        (processChunk frame.cols frame.numCols meta)
        ⟨[], [], [], [], []⟩).counter := rfl
  have hrc : (run_cleaning_pipeline frame meta).cleaned_df
      = (cleanCore fullKey frame.cols frame.numCols meta frame.rows
          []).corrected := rfl
  have hri : (run_cleaning_pipeline frame meta).invalid_rows
      = (cleanCore fullKey frame.cols frame.numCols meta frame.rows
          []).invalid := rfl
  have hrd : (run_cleaning_pipeline frame meta).duplicates
      = (cleanCore fullKey frame.cols frame.numCols meta frame.rows
          []).dups := rfl
  have hrrep : (run_cleaning_pipeline frame meta).cleaning_report
      = assembleReport
          (cleanCore fullKey frame.cols frame.numCols meta frame.rows
            []).invalid.length
          (cleanCore fullKey frame.cols frame.numCols meta frame.rows
            []).dups.length
          (cleanCore fullKey frame.cols frame.numCols meta frame.rows
            []).domainReport := rfl
  have hmain : (stream_clean_to_parquet frame meta n).cleaned
      = (run_cleaning_pipeline frame meta).cleaned_df := by
    rw [hsc, f2, hrc, t1, List.nil_append]
  refine ⟨hmain, ?_, ?_, ?_, ?_⟩
  · rw [hsi, f3, hri, t2, List.nil_append]
  · rw [hsd, f4, hrd, t3, List.nil_append]
  · rw [hsr, f2, hrc, t1, List.nil_append]
  · intro rule
    rw [hsrep, streamReport_total _ (f6 (by simp)) rule, f5 rule,
      hrrep, t2, t3, t4]
    rw [show reportTotal (⟨[], [], [], [], []⟩ : StreamAcc).counter rule = 0
      from rfl, Nat.zero_add]

/-- Witness for C2: a concrete five-row frame cleaned in two-row batches — a
cross-batch duplicate and an out-of-range row included — matches the
one-pass run on every output. -/
theorem stream_cleaning_row_equivalent_witness :
    (stream_clean_to_parquet
      ⟨["ID_INSCRICAO", "NOTA_MATEMATICA"], ["NOTA_MATEMATICA"],
       [[("ID_INSCRICAO", Value.str "1"), ("NOTA_MATEMATICA", Value.num 500)],
        [("ID_INSCRICAO", Value.str "2"), ("NOTA_MATEMATICA", Value.num 2000)],
        [("ID_INSCRICAO", Value.str "3"), ("NOTA_MATEMATICA", Value.num 700)],
        [("ID_INSCRICAO", Value.str "1"), ("NOTA_MATEMATICA", Value.num 650)],
        [("ID_INSCRICAO", Value.str "4"),
         ("NOTA_MATEMATICA", Value.num 800)]]⟩ [] 2).cleaned
      = (run_cleaning_pipeline
      ⟨["ID_INSCRICAO", "NOTA_MATEMATICA"], ["NOTA_MATEMATICA"],
       [[("ID_INSCRICAO", Value.str "1"), ("NOTA_MATEMATICA", Value.num 500)],
        [("ID_INSCRICAO", Value.str "2"), ("NOTA_MATEMATICA", Value.num 2000)],
        [("ID_INSCRICAO", Value.str "3"), ("NOTA_MATEMATICA", Value.num 700)],
        [("ID_INSCRICAO", Value.str "1"), ("NOTA_MATEMATICA", Value.num 650)],
        [("ID_INSCRICAO", Value.str "4"),
         ("NOTA_MATEMATICA", Value.num 800)]]⟩ []).cleaned_df :=
  (stream_cleaning_row_equivalent
    ⟨["ID_INSCRICAO", "NOTA_MATEMATICA"], ["NOTA_MATEMATICA"],
     [[("ID_INSCRICAO", Value.str "1"), ("NOTA_MATEMATICA", Value.num 500)],
      [("ID_INSCRICAO", Value.str "2"), ("NOTA_MATEMATICA", Value.num 2000)],
      [("ID_INSCRICAO", Value.str "3"), ("NOTA_MATEMATICA", Value.num 700)],
      [("ID_INSCRICAO", Value.str "1"), ("NOTA_MATEMATICA", Value.num 650)],
      [("ID_INSCRICAO", Value.str "4"),
       ("NOTA_MATEMATICA", Value.num 800)]]⟩ [] 2 (by norm_num)
    (by intro _ r hr
        fin_cases hr
        · exact ⟨"1", rfl⟩
        · exact ⟨"2", rfl⟩
        · exact ⟨"3", rfl⟩
        · exact ⟨"1", rfl⟩
        · exact ⟨"4", rfl⟩)).1
